import Mathlib

/-!
Verification development for the OutLoud pipeline (tyler-french/OutLoud).

The definitions below are a shallow embedding of the Python sources:
  src/outloud/tts/tts.py      (chunker, chunk synthesizer, timestamp scaling)
  src/outloud/db/db.py        (item store over sqlite)
  src/outloud/worker/worker.py (stage executors, worker loop, crash recovery)
  src/app.py                  (ingestion routes)

Python strings are modelled as lists of characters (type Chars), Python
floats in the timestamp code as rationals, machine-opaque collaborators
(sha256, the kokoro TTS engine, the PDF/URL extractors, the LLM cleaner,
werkzeug secure_filename) as explicit function parameters, and the effect
of Python exceptions as Except / a state-plus-exception monad in which
state mutations performed before a raise survive it, exactly as database
and file writes do in the source.
-/

/-! ## Character-list prelude (Python str operations) -/

/-- Python strings as lists of characters. -/
abbrev Chars := List Char

/-- The ASCII whitespace characters stripped by Python str.strip and matched
by the regex class \s: space, tab, newline, carriage return, vertical tab,
form feed. -/
def isPyWs (c : Char) : Bool :=
  c == ' ' || c == '\t' || c == '\n' || c == '\r' ||
  c == Char.ofNat 11 || c == Char.ofNat 12

/-- Drop leading Python whitespace (left part of str.strip). -/
def trimLeftWs (l : Chars) : Chars := l.dropWhile isPyWs

/-- Drop trailing Python whitespace (right part of str.strip). -/
def trimRightWs (l : Chars) : Chars := (l.reverse.dropWhile isPyWs).reverse

/-- Python str.strip(): remove leading and trailing whitespace. -/
def pyStrip (l : Chars) : Chars := trimLeftWs (trimRightWs l)

/-- Python str.strip() on the String type (used by the app/db layer). -/
def pyStripS (s : String) : String := String.mk (pyStrip s.data)

/-- Whether a chunk contains any whitespace character. -/
def hasWs (l : Chars) : Bool := l.any isPyWs

/-! ## Chunker: split_into_chunks (src/outloud/tts/tts.py lines 190-220)

The sentence boundary regex of the source is

  (?<!\bMr)(?<!\bMrs)...(?<!\bSt)(?<=[.!?])\s+(?=[A-Z"\x27]|$)

re.split semantics are embedded by a left-to-right scanner: at each
position it checks the zero-width lookbehinds (previous character is
sentence punctuation; no abbreviation ends here - the abbreviation
lookbehinds are reproduced literally from the pattern), then consumes the
longest whitespace run whose end satisfies the lookahead (backtracking
from the full run down to one character), emits the piece scanned so far,
and continues after the match.  The scanner is written with an explicit
fuel argument equal to the length of the remaining input so that it is
structurally recursive; one unit of fuel is spent per consumed character
or per match (every match consumes at least one character), so the fuel
never runs out when it starts at the length of the input. -/

/-- Characters that end a sentence in the boundary regex: the class [.!?]. -/
def sentencePunct (c : Char) : Bool := c == '.' || c == '!' || c == '?'

/-- Characters on which an oversized sentence is split: the class [,;:]. -/
def clausePunct (c : Char) : Bool := c == ',' || c == ';' || c == ':'

/-- Word characters for the regex word boundary \b (ASCII part of \w). -/
def isWordChar (c : Char) : Bool := c.isAlphanum || c == '_'

/-- The abbreviation literals of the negative lookbehinds, with the escaped
dots of e.g and i.e as literal dot characters. -/
def abbrevStrings : List Chars :=
  ["Mr".data, "Mrs".data, "Dr".data, "Ms".data, "Prof".data, "Sr".data,
   "Jr".data, "vs".data, "etc".data, "e.g".data, "i.e".data, "No".data,
   "St".data]

/-- Whether the lookbehind \b<ab> matches ending at the current position,
where revPre is the reversed list of the characters before the position.
The boundary \b sits before the first character of the abbreviation (a word
character), so it holds when the preceding character is absent or not a
word character. -/
def abbrevHitsRev (revPre : Chars) (ab : Chars) : Bool :=
  (decide (ab.length ≤ revPre.length)) &&
  (revPre.take ab.length == ab.reverse) &&
  (match revPre.drop ab.length with
   | [] => true
   | d :: _ => !(isWordChar d))

/-- Conjunction of all the negative abbreviation lookbehinds. -/
def abbrevOkRev (revPre : Chars) : Bool :=
  abbrevStrings.all (fun ab => !(abbrevHitsRev revPre ab))

/-- The lookahead (?=[A-Z"\x27]|$) applied to the input remaining after the
whitespace run.  In Python re without MULTILINE, $ matches at the end of
the input and also just before a newline that is the last character. -/
def lookaheadOkL (rem : Chars) : Bool :=
  match rem with
  | [] => true
  | [d] => d.isUpper || d == '"' || d == Char.ofNat 39 || d == '\n'
  | d :: _ :: _ => d.isUpper || d == '"' || d == Char.ofNat 39

/-- Whether the character before the current position (head of the
reversed prefix) is sentence punctuation: the lookbehind (?<=[.!?]). -/
def headIsPunct : Chars → Bool
  | p :: _ => sentencePunct p
  | [] => false

/-- Whether a list starts with a whitespace character. -/
def headIsWs : Chars → Bool
  | d :: _ => isPyWs d
  | [] => false

/-- Greedy backtracking for \s+: try the run lengths k, k-1, ..., 1 and
return the first (longest) whose end position satisfies the lookahead.
lrest is the input from the start of the whitespace run. -/
def tryBacktrack (lrest : Chars) : Nat → Option Nat
  | 0 => none
  | k + 1 =>
    if lookaheadOkL (lrest.drop (k + 1)) then some (k + 1)
    else tryBacktrack lrest k

/-- The re.split scanner.  revPre is the reversed input consumed so far,
rest the input still to scan, acc the reversed current piece.  Fuel is
spent one unit per step; it is initialised to the length of rest and
suffices because every step consumes at least one character of rest. -/
def sentAux : Nat → Chars → Chars → Chars → List Chars
  | 0, _, rest, acc => [acc.reverse ++ rest]
  | _ + 1, _, [], acc => [acc.reverse]
  | fuel + 1, revPre, c :: rest2, acc =>
    let isCand := isPyWs c && headIsPunct revPre && abbrevOkRev revPre
    if isCand then
      match tryBacktrack (c :: rest2) (1 + (rest2.takeWhile isPyWs).length) with
      | some k =>
        acc.reverse ::
          sentAux fuel (((c :: rest2).take k).reverse ++ revPre)
            ((c :: rest2).drop k) []
      | none => sentAux fuel (c :: revPre) rest2 (c :: acc)
    else sentAux fuel (c :: revPre) rest2 (c :: acc)

/-- re.split of the sentence boundary pattern over the whole input. -/
def sentRegexSplit (text : Chars) : List Chars :=
  sentAux text.length [] text []

/-- The list comprehension
  sentences = [s.strip() for s in re.split(pattern, text) if s.strip()]. -/
def sentencesOf (text : Chars) : List Chars :=
  ((sentRegexSplit text).map pyStrip).filter (fun s => !s.isEmpty)

/-- re.split of the clause pattern [,;:]\s+ applied to an oversized
sentence: scan for a clause punctuation character followed by whitespace,
emit the piece before it, skip the (maximal, greedy) whitespace run, and
continue.  Same fuel discipline as sentAux. -/
def punctAux : Nat → Chars → Chars → List Chars
  | 0, rest, acc => [acc.reverse ++ rest]
  | _ + 1, [], acc => [acc.reverse]
  | fuel + 1, c :: rest2, acc =>
    if clausePunct c && headIsWs rest2 then
      acc.reverse :: punctAux fuel (rest2.dropWhile isPyWs) []
    else punctAux fuel rest2 (c :: acc)

/-- re.split(r"[,;:]\s+", sentence). -/
def clauseSplit (sentence : Chars) : List Chars :=
  punctAux sentence.length sentence []

/-- The hard cut
  for i in range(0, len(part), max_chars): chunks.append(part[i:i+max_chars].strip())
written with fuel equal to the length of part.  For max_chars = 0 the
Python source raises ValueError (range with step zero); the fuel base case
is unreachable for 0 < maxChars, and all theorems below assume 0 < maxChars. -/
def hardCutF : Nat → Chars → Nat → List Chars
  | 0, _, _ => []
  | fuel + 1, part, maxChars =>
    if part.isEmpty then []
    else pyStrip (part.take maxChars) :: hardCutF fuel (part.drop maxChars) maxChars

/-- Hard cut of a still-oversized clause part at fixed offsets. -/
def hardCut (part : Chars) (maxChars : Nat) : List Chars :=
  hardCutF part.length part maxChars

/-- Processing of the clause parts of one oversized sentence:
  for part in parts:
      if len(part) <= max_chars: chunks.append(part.strip())
      else: hard cut. -/
def partsFold (maxChars : Nat) (chunks : List Chars) (parts : List Chars) :
    List Chars :=
  parts.foldl
    (fun cs part =>
      if part.length ≤ maxChars then cs ++ [pyStrip part]
      else cs ++ hardCut part maxChars)
    chunks

/-- One iteration of the sentence-packing loop of split_into_chunks on the
state (chunks, current_chunk). -/
def chunkStep (maxChars : Nat) (st : List Chars × Chars) (s : Chars) :
    List Chars × Chars :=
  let chunks := st.1
  let cur := st.2
  if cur.length + s.length + 1 ≤ maxChars then
    (chunks, cur ++ s ++ [' '])
  else
    let chunks1 := if cur ≠ [] then chunks ++ [pyStrip cur] else chunks
    if maxChars < s.length then
      (partsFold maxChars chunks1 (clauseSplit s), [])
    else (chunks1, s ++ [' '])

/-- split_into_chunks(text, max_chars) from src/outloud/tts/tts.py,
including the final flush of the buffer, the filter that drops empty
chunks, and the fallback returning the whole input when the chunk list is
empty. -/
def splitIntoChunks (text : Chars) (maxChars : Nat) : List Chars :=
  let sentences := sentencesOf text
  let st := sentences.foldl (chunkStep maxChars) ([], [])
  let chunks := if pyStrip st.2 ≠ [] then st.1 ++ [pyStrip st.2] else st.1
  if chunks = [] then [text] else chunks.filter (fun c => !c.isEmpty)

/-- The default max_chars of split_into_chunks. -/
def defaultMaxChars : Nat := 250

/-! ## Chunk synthesizer: _generate_chunk_audio (tts.py lines 223-248)

The kokoro engine is an opaque function from a chunk to either a sample
array or a failure.  The Python code catches IndexError and retries only
when "510" occurs in the message (the length-overflow sentinel); the two
cases are the two constructors of KokoroError. -/

/-- Failures of the external TTS engine: the length-overflow IndexError
carrying the 510 sentinel, or any other failure. -/
inductive KokoroError where
  | overflow510 : KokoroError
  | otherError : Nat → KokoroError
deriving DecidableEq

instance {ε α : Type} [DecidableEq ε] [DecidableEq α] :
    DecidableEq (Except ε α) := fun x y =>
  match x, y with
  | .ok a, .ok b =>
    if h : a = b then isTrue (by rw [h]) else isFalse (by intro hc; cases hc; exact h rfl)
  | .error e, .error f =>
    if h : e = f then isTrue (by rw [h]) else isFalse (by intro hc; cases hc; exact h rfl)
  | .ok _, .error _ => isFalse (by intro hc; cases hc)
  | .error _, .ok _ => isFalse (by intro hc; cases hc)

/-- The split position of the retry path:
  mid = len(chunk) // 2
  space_pos = chunk.rfind(" ", 0, mid)
  if space_pos > 0: mid = space_pos
rfind returns the greatest index of a space strictly below mid, or -1
(modelled as none) when there is no space there. -/
def retrySplitPos (chunk : Chars) : Nat :=
  let mid := chunk.length / 2
  match (chunk.take mid).reverse.findIdx? (fun c => c == ' ') with
  | some j =>
    let spacePos := (chunk.take mid).length - 1 - j
    if 0 < spacePos then spacePos else mid
  | none => mid

/-- _generate_chunk_audio: call the engine; on the 510 length-overflow
IndexError with retries remaining, split at retrySplitPos, strip both
halves, recurse on each with one retry fewer, and concatenate the sample
arrays in order; otherwise re-raise.  The first recursive call is
evaluated first, as in Python, so its failure propagates before the second
half is attempted. -/
def generateChunkAudio (kokoro : Chars → Except KokoroError (List Int)) :
    Nat → Chars → Except KokoroError (List Int)
  | 0, chunk =>
    match kokoro chunk with
    | .ok s => .ok s
    | .error e => .error e
  | r + 1, chunk =>
    match kokoro chunk with
    | .ok s => .ok s
    | .error .overflow510 =>
      match generateChunkAudio kokoro r
          (pyStrip (chunk.take (retrySplitPos chunk))) with
      | .error e1 => .error e1
      | .ok s1 =>
        match generateChunkAudio kokoro r
            (pyStrip (chunk.drop (retrySplitPos chunk))) with
        | .error e2 => .error e2
        | .ok s2 => .ok (s1 ++ s2)
    | .error e => .error e

/-- The synthesizer entry point with the default retry budget
max_retries = 3 used by every caller in the source. -/
def synthesizeChunk (kokoro : Chars → Except KokoroError (List Int))
    (chunk : Chars) : Except KokoroError (List Int) :=
  generateChunkAudio kokoro 3 chunk

/-- Modelled from the claim wording of C2 only (not from the source), for
comparison with retrySplitPos: the position of the whitespace character
nearest to the midpoint of the chunk. -/
def claimNearestWsPos (chunk : Chars) : Option Nat :=
  let mid := chunk.length / 2
  ((List.range chunk.length).filter
      (fun i => isPyWs (chunk.getD i 'x'))).foldl
    (fun best i =>
      match best with
      | none => some i
      | some b => if Nat.dist i mid < Nat.dist b mid then some i else best)
    none

/-- Modelled from the claim wording of C2 only: one splitting step at the
whitespace nearest the midpoint, synthesizing both stripped halves and
concatenating, used to exhibit the divergence from the source behaviour. -/
def claimSplitSynth (kokoro : Chars → Except KokoroError (List Int))
    (chunk : Chars) : Except KokoroError (List Int) :=
  match claimNearestWsPos chunk with
  | none => kokoro chunk
  | some p =>
    match kokoro (pyStrip (chunk.take p)) with
    | .error e1 => .error e1
    | .ok s1 =>
      match kokoro (pyStrip (chunk.drop p)) with
      | .error e2 => .error e2
      | .ok s2 => .ok (s1 ++ s2)

/-! ## Timestamp scaling: _generate_chunk_with_timestamps (tts.py 450-476)

Python floats are modelled as rationals.  The function below embeds the
code from the len(audio) == 0 early return through the rescaling block:
given the raw timestamps produced by _calculate_word_timestamps and the
length of the rendered sample array, it returns the timestamp list that
_generate_chunk_with_timestamps pairs with the audio (the empty list on
every fallthrough path). -/

/-- One word timestamp {word, start, end}. -/
structure WordStamp where
  word : String
  tStart : ℚ
  tEnd : ℚ
deriving DecidableEq

/-- SAMPLE_RATE = 24000. -/
def sampleRateQ : ℚ := 24000

/-- The rescaling block of _generate_chunk_with_timestamps:
  predicted_duration = raw_timestamps[-1]["end"]
  actual_duration = len(audio) / SAMPLE_RATE
  if predicted_duration > 0:
      scale = actual_duration / predicted_duration
      every start and end is multiplied by scale
with the len(audio) == 0 early return and the empty-raw and nonpositive
fallthroughs all yielding the empty list. -/
def scaleChunkTimestamps (rawTs : List WordStamp) (audioLen : Nat) :
    List WordStamp :=
  if audioLen = 0 then []
  else
    match rawTs.getLast? with
    | none => []
    | some lastTs =>
      let predicted := lastTs.tEnd
      let actual : ℚ := (audioLen : ℚ) / sampleRateQ
      if 0 < predicted then
        rawTs.map (fun t =>
          { word := t.word
            tStart := t.tStart * (actual / predicted)
            tEnd := t.tEnd * (actual / predicted) })
      else []

/-! ## Item store: src/outloud/db/db.py

One row of the articles table.  Column values that the schema allows to be
NULL are Options; created_at is modelled by a monotone counter (sqlite
CURRENT_TIMESTAMP assigned at insertion), and the AUTOINCREMENT primary
key by one more than the largest id present. -/

structure Article where
  id : Nat
  title : String
  sourceType : String
  sourcePath : String
  txtPath : Option String
  mp3Path : Option String
  notes : String
  status : String
  createdAt : Nat
  completedAt : Option String
  rawTxtPath : Option String
  cleanedTxtPath : Option String
  voice : String
  processingStage : String
  error : Option String
  contentHash : Option String
  progress : Option String
  wasCleaned : Int
  timestampsPath : Option String
deriving DecidableEq

/-- The articles table, in insertion (rowid) order. -/
abbrev ArticleDb := List Article

/-- AUTOINCREMENT id assignment: one more than the largest id present. -/
def nextArticleId (db : ArticleDb) : Nat :=
  (db.map (fun a => a.id)).foldl max 0 + 1

/-- create_article: INSERT with processing_stage queued and the column
defaults of the schema. -/
def createArticle (db : ArticleDb) (title sourceType sourcePath : String)
    (txtPath : Option String) (voice : String) (contentHash : Option String) :
    ArticleDb × Nat :=
  let aid := nextArticleId db
  (db ++ [{ id := aid
            title := title
            sourceType := sourceType
            sourcePath := sourcePath
            txtPath := txtPath
            mp3Path := none
            notes := ""
            status := "pending"
            createdAt := aid
            completedAt := none
            rawTxtPath := none
            cleanedTxtPath := none
            voice := voice
            processingStage := "queued"
            error := none
            contentHash := contentHash
            progress := none
            wasCleaned := 0
            timestampsPath := none }], aid)

/-- get_article: SELECT * WHERE id = ?, first row or absent. -/
def getArticle (db : ArticleDb) (aid : Nat) : Option Article :=
  db.find? (fun a => a.id == aid)

/-- get_article_by_hash: SELECT * WHERE content_hash = ?.  A NULL
content_hash never compares equal to a parameter in SQL, hence the
some-equality. -/
def getArticleByHash (db : ArticleDb) (h : String) : Option Article :=
  db.find? (fun a => a.contentHash == some h)

/-- Insertion into a list sorted by ascending created_at. -/
def insertByCreatedAsc (a : Article) : ArticleDb → ArticleDb
  | [] => [a]
  | b :: bs =>
    if a.createdAt ≤ b.createdAt then a :: b :: bs
    else b :: insertByCreatedAsc a bs

/-- Sort by ascending created_at (insertion sort). -/
def sortByCreatedAsc : ArticleDb → ArticleDb
  | [] => []
  | a :: as => insertByCreatedAsc a (sortByCreatedAsc as)

/-- get_all_articles: SELECT * ORDER BY created_at DESC. -/
def getAllArticles (db : ArticleDb) : ArticleDb :=
  (sortByCreatedAsc db).reverse

/-- The terminal stages of get_articles_to_process. -/
def terminalStages : List String := ["ready", "completed", "error"]

/-- get_articles_to_process: WHERE processing_stage NOT IN
(ready, completed, error) ORDER BY created_at ASC. -/
def getArticlesToProcess (db : ArticleDb) : ArticleDb :=
  sortByCreatedAsc (db.filter (fun a => !(terminalStages.contains a.processingStage)))

/-- The _VALID_STAGES frozenset. -/
def validStages : List String :=
  ["queued", "extracting", "extracted", "cleaning", "cleaned", "generating",
   "ready", "error"]

/-- The _ARTICLE_COLUMNS frozenset. -/
def articleColumns : List String :=
  ["title", "source_type", "source_path", "txt_path", "mp3_path", "notes",
   "status", "raw_txt_path", "cleaned_txt_path", "voice", "processing_stage",
   "error", "content_hash", "progress", "was_cleaned", "timestamps_path"]

/-- A value bound to a sqlite parameter: TEXT, INTEGER or NULL. -/
inductive DbVal where
  | s : String → DbVal
  | i : Int → DbVal
  | null : DbVal
deriving DecidableEq

/-- Interpretation of a bound value in a nullable TEXT column. -/
def DbVal.asOptStr : DbVal → Option String
  | .s v => some v
  | .i n => some (toString n)
  | .null => none

/-- Interpretation of a bound value in a NOT NULL TEXT column (the calls in
the source never bind NULL there; default keeps the old value). -/
def DbVal.asStr (old : String) : DbVal → String
  | .s v => v
  | .i n => toString n
  | .null => old

/-- Interpretation of a bound value in the was_cleaned INTEGER column. -/
def DbVal.asInt (old : Int) : DbVal → Int
  | .i n => n
  | .s _ => old
  | .null => old

/-- Application of one SET column = value pair to a row. -/
def applyColumn (a : Article) (kv : String × DbVal) : Article :=
  if kv.1 = "title" then { a with title := kv.2.asStr a.title }
  else if kv.1 = "source_type" then { a with sourceType := kv.2.asStr a.sourceType }
  else if kv.1 = "source_path" then { a with sourcePath := kv.2.asStr a.sourcePath }
  else if kv.1 = "txt_path" then { a with txtPath := kv.2.asOptStr }
  else if kv.1 = "mp3_path" then { a with mp3Path := kv.2.asOptStr }
  else if kv.1 = "notes" then { a with notes := kv.2.asStr a.notes }
  else if kv.1 = "status" then { a with status := kv.2.asStr a.status }
  else if kv.1 = "raw_txt_path" then { a with rawTxtPath := kv.2.asOptStr }
  else if kv.1 = "cleaned_txt_path" then { a with cleanedTxtPath := kv.2.asOptStr }
  else if kv.1 = "voice" then { a with voice := kv.2.asStr a.voice }
  else if kv.1 = "processing_stage" then { a with processingStage := kv.2.asStr a.processingStage }
  else if kv.1 = "error" then { a with error := kv.2.asOptStr }
  else if kv.1 = "content_hash" then { a with contentHash := kv.2.asOptStr }
  else if kv.1 = "progress" then { a with progress := kv.2.asOptStr }
  else if kv.1 = "was_cleaned" then { a with wasCleaned := kv.2.asInt a.wasCleaned }
  else if kv.1 = "timestamps_path" then { a with timestampsPath := kv.2.asOptStr }
  else a

/-- update_article_stage(article_id, stage, **kwargs): the stage is checked
against _VALID_STAGES and every kwargs key against _ARTICLE_COLUMNS before
any row is touched (both checks raise ValueError, modelled as the error
branch); on success the UPDATE sets processing_stage and the kwargs
columns on every row whose id matches. -/
def updateArticleStage (db : ArticleDb) (aid : Nat) (stage : String)
    (kwargs : List (String × DbVal)) : Except String ArticleDb :=
  if !(validStages.contains stage) then
    .error ("Invalid processing stage: " ++ stage)
  else
    match kwargs.find? (fun kv => !(articleColumns.contains kv.1)) with
    | some kv => .error ("Invalid column name: " ++ kv.1)
    | none =>
      .ok (db.map (fun a =>
        if a.id = aid then
          kwargs.foldl applyColumn { a with processingStage := stage }
        else a))

/-- set_article_error: UPDATE SET processing_stage = error, error = msg. -/
def setArticleError (db : ArticleDb) (aid : Nat) (msg : String) : ArticleDb :=
  db.map (fun a =>
    if a.id = aid then { a with processingStage := "error", error := some msg }
    else a)

/-- The character whitelist of update_article_progress. -/
def validProgressChar (c : Char) : Bool :=
  c.isAlphanum || c == ' ' || c == '/' || c == '(' || c == ')' || c == '-'

/-- update_article_progress: validates the progress text, then UPDATE SET
progress = ? WHERE id = ?. -/
def updateArticleProgress (db : ArticleDb) (aid : Nat) (progress : String) :
    Except String ArticleDb :=
  if !(progress.data.all validProgressChar) then
    .error ("Invalid progress text: " ++ progress)
  else
    .ok (db.map (fun a =>
      if a.id = aid then { a with progress := some progress } else a))

/-- update_article_mp3: sets mp3_path (and timestamps_path when given),
status ready and processing_stage ready. -/
def updateArticleMp3 (db : ArticleDb) (aid : Nat) (mp3Path : String)
    (timestampsPath : Option String) : ArticleDb :=
  db.map (fun a =>
    if a.id = aid then
      match timestampsPath with
      | some ts =>
        { a with mp3Path := some mp3Path, timestampsPath := some ts,
                 status := "ready", processingStage := "ready" }
      | none =>
        { a with mp3Path := some mp3Path, status := "ready",
                 processingStage := "ready" }
    else a)

/-- delete_article: DELETE WHERE id = ?. -/
def deleteArticle (db : ArticleDb) (aid : Nat) : ArticleDb :=
  db.filter (fun a => a.id ≠ aid)

/-! ## Worker: src/outloud/worker/worker.py

Process state is the database plus the data directory on disk.  The
external collaborators (extractors, the cleaner probe and call, the kokoro
engine) and the uuid4 draws of the content-hash fallbacks are fields of an
environment record.  Python exceptions are modelled by a state-and-
exception monad: a raise carries the state reached so far, since database
and file writes performed before the raise are not rolled back. -/

/-- Exception classes distinguished by the worker: the recoverable tuple
(ConnectionError, TimeoutError, OSError) of the loop handler, plus the
ValueError / RuntimeError / IndexError raised by the code paths embedded
here. -/
inductive PyExc where
  | connectionError : PyExc
  | timeoutError : PyExc
  | osError : String → PyExc
  | valueError : String → PyExc
  | runtimeError : String → PyExc
  | indexError : String → PyExc
deriving DecidableEq

/-- str(e) as stored into the error column. -/
def PyExc.message : PyExc → String
  | .connectionError => "connection error"
  | .timeoutError => "timeout error"
  | .osError m => m
  | .valueError m => m
  | .runtimeError m => m
  | .indexError m => m

/-- The classes caught by the worker loop handler
except (ConnectionError, TimeoutError, OSError). -/
def recoverablePyExc : PyExc → Bool
  | .connectionError => true
  | .timeoutError => true
  | .osError _ => true
  | _ => false

/-- The data directory: path to content map. -/
abbrev FsState := List (String × String)

/-- Whether a path exists. -/
def fsExists (fs : FsState) (p : String) : Bool :=
  (fs.find? (fun e => e.1 == p)).isSome

/-- Write (create or overwrite) a file. -/
def fsWrite (fs : FsState) (p c : String) : FsState :=
  (p, c) :: fs.filter (fun e => e.1 ≠ p)

/-- Read a file if it exists. -/
def fsRead (fs : FsState) (p : String) : Option String :=
  (fs.find? (fun e => e.1 == p)).map (fun e => e.2)

/-- Delete a file (Path.unlink). -/
def fsDelete (fs : FsState) (p : String) : FsState :=
  fs.filter (fun e => e.1 ≠ p)

/-- Database plus file system. -/
structure SysState where
  db : ArticleDb
  fs : FsState
deriving DecidableEq

/-- The TEXTS_DIR, AUDIO_DIR and UPLOAD_DIR prefixes of config.py, as path
prefixes for joining. -/
def textsDir : String := "data/texts/"

/-- AUDIO_DIR as a path prefix. -/
def audioDir : String := "data/audio/"

/-- UPLOAD_DIR as a path prefix. -/
def uploadDir : String := "data/uploads/"

/-- The state-and-exception monad of the embedded Python code: a raise
returns the state reached so far together with the exception. -/
def PyM (α : Type) : Type := SysState → SysState × Except PyExc α

instance : Monad PyM where
  pure a := fun st => (st, .ok a)
  bind x f := fun st =>
    match x st with
    | (st1, .ok a) => f a st1
    | (st1, .error e) => (st1, .error e)

/-- raise e. -/
def pyRaise {α : Type} (e : PyExc) : PyM α := fun st => (st, .error e)

/-- Lift a collaborator result, propagating its exception. -/
def pyLift {α : Type} (r : Except PyExc α) : PyM α := fun st => (st, r)

/-- try body except Exception as e: raise (wrap e). -/
def pyTryWrap {α : Type} (body : PyM α) (wrap : PyExc → PyExc) : PyM α :=
  fun st =>
    match body st with
    | (st1, .ok a) => (st1, .ok a)
    | (st1, .error e) => (st1, .error (wrap e))

/-- Path existence test. -/
def pyFsExists (p : String) : PyM Bool := fun st => (st, .ok (fsExists st.fs p))

/-- File write (save_text / Path.write_text / the encoded audio export). -/
def pyFsWrite (p c : String) : PyM Unit :=
  fun st => ({ st with fs := fsWrite st.fs p c }, .ok ())

/-- Path.read_text, raising FileNotFoundError (an OSError) when absent. -/
def pyFsReadText (p : String) : PyM String := fun st =>
  match fsRead st.fs p with
  | some c => (st, .ok c)
  | none => (st, .error (.osError ("No such file: " ++ p)))

/-- Path.unlink. -/
def pyFsDelete (p : String) : PyM Unit :=
  fun st => ({ st with fs := fsDelete st.fs p }, .ok ())

/-- db.update_article_stage inside the worker: a ValueError from the
validation propagates as an exception, a successful UPDATE commits. -/
def dbUpdateStageM (aid : Nat) (stage : String)
    (kwargs : List (String × DbVal)) : PyM Unit := fun st =>
  match updateArticleStage st.db aid stage kwargs with
  | .ok db1 => ({ st with db := db1 }, .ok ())
  | .error m => (st, .error (.valueError m))

/-- db.get_article inside the worker. -/
def dbGetArticleM (aid : Nat) : PyM (Option Article) :=
  fun st => (st, .ok (getArticle st.db aid))

/-- db.update_article_mp3 inside the worker (no timestamps argument). -/
def dbUpdateMp3M (aid : Nat) (mp3 : String) : PyM Unit :=
  fun st => ({ st with db := updateArticleMp3 st.db aid mp3 none }, .ok ())

/-- db.update_article_progress inside the worker, propagating its
ValueError. -/
def dbUpdateProgressM (aid : Nat) (progress : String) : PyM Unit := fun st =>
  match updateArticleProgress st.db aid progress with
  | .ok db1 => ({ st with db := db1 }, .ok ())
  | .error m => (st, .error (.valueError m))

/-- The environment of opaque collaborators and per-executor uuid4 draws.
fetchOutcome models whether the db.get_articles_to_process call of the
loop body raises (the sqlite layer can fail with an OSError), replacing
that single effectful call. -/
structure ExecEnv where
  kokoro : Chars → Except KokoroError (List Int)
  extractPdf : String → Except PyExc (String × String)
  extractUrl : String → Except PyExc (String × String)
  ollamaRunning : Bool
  cleanupTextChunked : String → Except PyExc String
  freshHashExtract : String
  freshHashClean : String
  freshHashAudio : String
  fetchOutcome : Option PyExc

/-- Python x or default for a nullable text field: both None and the empty
string fall back. -/
def pyOr (v : Option String) (d : String) : String :=
  match v with
  | some s => if s = "" then d else s
  | none => d

/-- Python x or default for a plain string. -/
def pyOrStr (v d : String) : String := if v = "" then d else v

/-- Python a or b between two nullable text fields (the
cleaned_txt_path or raw_txt_path source selection). -/
def pyOrField (a b : Option String) : Option String :=
  match a with
  | some s => if s = "" then b else some s
  | none => b

/-- Python falsy test for a nullable text field. -/
def isFalsyOptStr (v : Option String) : Bool :=
  match v with
  | some s => s = ""
  | none => true

/-- Python str.lower() (ASCII case folding). -/
def pyLower (s : String) : String := String.mk (s.data.map Char.toLower)

/-- Python str.endswith(suffix). -/
def pyEndsWith (s suffix : String) : Bool :=
  s.data.reverse.take suffix.data.length == suffix.data.reverse

/-- The raw text artifact name f-string {content_hash}_raw.txt. -/
def rawTextFilename (h : String) : String := h ++ "_raw.txt"

/-- The cleaned text artifact name f-string {content_hash}_cleaned.txt. -/
def cleanedTextFilename (h : String) : String := h ++ "_cleaned.txt"

/-- The audio artifact name f-string {content_hash}_{voice}.mp3. -/
def audioFilename (h voice : String) : String := h ++ "_" ++ voice ++ ".mp3"

/-- _do_extraction(article).  The article argument is the snapshot dict
held by the caller; every database access goes through the store by id. -/
def doExtraction (env : ExecEnv) (a : Article) : PyM Unit :=
  let contentHash := pyOr a.contentHash env.freshHashExtract
  (match a.rawTxtPath with
   | some p => if p = "" then pure false else pyFsExists (textsDir ++ p)
   | none => pure false) >>= fun existingOk =>
  if existingOk then
    dbUpdateStageM a.id "extracted" []
  else
    dbUpdateStageM a.id "extracting" [] >>= fun _ =>
    (if a.sourceType = "pdf" then
      pyLift (env.extractPdf (uploadDir ++ a.sourcePath))
    else if a.sourceType = "url" then
      pyLift (env.extractUrl a.sourcePath)
    else
      pyRaise (.valueError ("Unknown source type: " ++ a.sourceType))) >>=
    fun tt =>
    let txtFilename := rawTextFilename contentHash
    pyFsWrite (textsDir ++ txtFilename) tt.2 >>= fun _ =>
    dbUpdateStageM a.id "extracted"
      [("title", .s tt.1), ("txt_path", .s txtFilename),
       ("raw_txt_path", .s txtFilename)]

/-- _do_cleaning(article). -/
def doCleaning (env : ExecEnv) (a : Article) : PyM Unit :=
  let contentHash := pyOr a.contentHash env.freshHashClean
  match a.rawTxtPath with
  | none =>
    pyRaise (.valueError
      ("Article " ++ toString a.id ++ " has no raw text to clean"))
  | some rawPath =>
    if rawPath = "" then
      pyRaise (.valueError
        ("Article " ++ toString a.id ++ " has no raw text to clean"))
    else
      let cleanedFilename := cleanedTextFilename contentHash
      pyFsExists (textsDir ++ cleanedFilename) >>= fun ex =>
      if ex then
        dbUpdateStageM a.id "cleaned" [("cleaned_txt_path", .s cleanedFilename)]
      else
        pyFsReadText (textsDir ++ rawPath) >>= fun text =>
        if !env.ollamaRunning then
          dbUpdateStageM a.id "cleaned" []
        else
          dbUpdateStageM a.id "cleaning" [] >>= fun _ =>
          pyTryWrap
            (pyLift (env.cleanupTextChunked text) >>= fun cleaned =>
             pyFsWrite (textsDir ++ cleanedFilename) cleaned >>= fun _ =>
             dbUpdateStageM a.id "cleaned"
               [("cleaned_txt_path", .s cleanedFilename),
                ("was_cleaned", .i 1)])
            (fun e =>
              .runtimeError ("Cleanup failed for article " ++ toString a.id
                ++ ": " ++ e.message))

/-- The progress callback of _do_audio_generation:
db.update_article_progress(article_id, f-string current/total chunks);
the status argument of the callback is unused by it. -/
def progressCallbackM (aid current total : Nat) : PyM Unit :=
  dbUpdateProgressM aid
    (Nat.repr current ++ "/" ++ Nat.repr total ++ " chunks")

/-- Conversion of an engine failure surfacing out of _generate_chunk_audio
into the IndexError it is in Python. -/
def kokoroResultToPy : Except KokoroError (List Int) → Except PyExc (List Int)
  | .ok s => .ok s
  | .error .overflow510 => .error (.indexError "index 510 is out of bounds")
  | .error (.otherError n) => .error (.indexError (toString n))

/-- The synthesis loop of generate_audio_chunked: per chunk, one progress
callback then one _generate_chunk_audio call (with the default retry
budget 3); sample arrays are accumulated in order. -/
def synthChunksGo (env : ExecEnv) (aid total : Nat) :
    List Chars → Nat → PyM (List Int)
  | [], _ => pure []
  | chunk :: rest, i =>
    progressCallbackM aid (i + 1) total >>= fun _ =>
    pyLift (kokoroResultToPy (generateChunkAudio env.kokoro 3 chunk)) >>=
    fun samples =>
    synthChunksGo env aid total rest (i + 1) >>= fun restSamples =>
    pure (samples ++ restSamples)

/-- Deterministic stand-in for the wav encoding written by soundfile. -/
def encodeWav (samples : List Int) : String := "WAV:" ++ toString samples

/-- Deterministic stand-in for the mp3 export written by pydub. -/
def encodeMp3 (samples : List Int) : String := "MP3:" ++ toString samples

/-- tts.generate_audio_chunked(text, output_path, voice, progress_callback)
as called by the worker: chunk the text with the default max_chars,
synthesize every chunk, then the three trailing progress callbacks around
writing the wav file, exporting the mp3 and unlinking the wav.
with_suffix(".wav") replaces the .mp3 extension of the output path. -/
def generateAudioChunkedM (env : ExecEnv) (aid : Nat) (text : String)
    (outputPath : String) : PyM Unit :=
  let chunks := splitIntoChunks text.data defaultMaxChars
  let total := chunks.length
  synthChunksGo env aid total chunks 0 >>= fun allSamples =>
  progressCallbackM aid total total >>= fun _ =>
  let wavPath := (outputPath.dropRight 4) ++ ".wav"
  pyFsWrite wavPath (encodeWav allSamples) >>= fun _ =>
  progressCallbackM aid total total >>= fun _ =>
  pyFsWrite outputPath (encodeMp3 allSamples) >>= fun _ =>
  pyFsDelete wavPath >>= fun _ =>
  progressCallbackM aid total total

/-- _do_audio_generation(article). -/
def doAudioGeneration (env : ExecEnv) (a : Article) : PyM Unit :=
  let sourceTxt := pyOrField a.cleanedTxtPath a.rawTxtPath
  let voice := pyOrStr a.voice "af_heart"
  let contentHash := pyOr a.contentHash env.freshHashAudio
  match sourceTxt with
  | none => pyRaise (.valueError "No text available for audio generation")
  | some src =>
    if src = "" then
      pyRaise (.valueError "No text available for audio generation")
    else
      let mp3Filename := audioFilename contentHash voice
      pyFsExists (audioDir ++ mp3Filename) >>= fun ex =>
      if ex then
        dbUpdateMp3M a.id mp3Filename
      else
        pyFsReadText (textsDir ++ src) >>= fun text =>
        dbUpdateStageM a.id "generating" [] >>= fun _ =>
        generateAudioChunkedM env a.id text (audioDir ++ mp3Filename) >>=
        fun _ =>
        dbUpdateMp3M a.id mp3Filename

/-- The try body of _process_article: run the executor matching the
current stage, re-reading the article between stages and returning
silently when the read reports it absent. -/
def stageChain (env : ExecEnv) (a : Article) : PyM Unit :=
  (if a.processingStage = "queued" ∨ a.processingStage = "extracting" then
    doExtraction env a
  else pure ()) >>= fun _ =>
  dbGetArticleM a.id >>= fun a1? =>
  match a1? with
  | none => pure ()
  | some a1 =>
    (if a1.processingStage = "extracted" ∨ a1.processingStage = "cleaning" then
      doCleaning env a1
    else pure ()) >>= fun _ =>
    dbGetArticleM a.id >>= fun a2? =>
    match a2? with
    | none => pure ()
    | some a2 =>
      if a2.processingStage = "cleaned" ∨ a2.processingStage = "generating" then
        doAudioGeneration env a2
      else pure ()

/-- _process_article(article): any exception from the stage chain is
caught at item level; the error record is written only when the article
still exists. -/
def processArticle (env : ExecEnv) (a : Article) (st : SysState) : SysState :=
  match stageChain env a st with
  | (st1, .ok _) => st1
  | (st1, .error e) =>
    match getArticle st1.db a.id with
    | some _ => { st1 with db := setArticleError st1.db a.id e.message }
    | none => st1

/-- Outcome of one pass of the worker loop body. -/
inductive LoopStep where
  | idle : SysState → LoopStep
  | worked : SysState → LoopStep
  | backoff : SysState → LoopStep
  | fatal : PyExc → SysState → LoopStep
deriving DecidableEq

/-- One iteration of the _worker_loop body: fetch the pending list (its
possible exception is env.fetchOutcome), wait when it is empty, otherwise
process every pending article in order; an exception of the recoverable
tuple caught at loop level produces a short backoff, any other one
re-raises and terminates the worker.  Exceptions inside _process_article
never escape it (its handler writes to the store, which is total in this
model), so the loop-level handlers only see the fetch outcome. -/
def workerLoopIteration (env : ExecEnv) (st : SysState) : LoopStep :=
  match env.fetchOutcome with
  | some e => if recoverablePyExc e then .backoff st else .fatal e st
  | none =>
    match getArticlesToProcess st.db with
    | [] => .idle st
    | articles =>
      .worked (articles.foldl (fun s a => processArticle env a s) st)

/-- The in-flight stages reset on startup. -/
def inProgressStages : List String := ["extracting", "cleaning", "generating"]

/-- _reset_in_progress_articles: iterate over get_all_articles and reset
every article whose stage is in-flight to queued via update_article_stage;
a per-article failure is caught and the loop continues (ids are always
present in this model, so the id None skip of the source has no branch
here). -/
def resetInProgressArticles (db : ArticleDb) : ArticleDb :=
  (getAllArticles db).foldl
    (fun acc a =>
      if inProgressStages.contains a.processingStage then
        match updateArticleStage acc a.id "queued" [] with
        | .ok db1 => db1
        | .error _ => acc
      else acc)
    db

/-! ## Ingestion routes: src/app.py

The sha256-based content hash and werkzeug secure_filename are opaque
function parameters.  Responses carry the article id, the duplicate flag
of the PDF route, or the 400 message. -/

/-- The voice ids of tts.get_available_voices, used by the route
validation. -/
def validVoiceIds : List String :=
  ["am_adam", "am_michael", "af_heart", "af_bella", "af_nicole", "af_sarah",
   "af_sky", "bf_emma", "bf_isabella", "bm_george", "bm_lewis"]

/-- A route response: created article id, duplicate article id, or a 400
error message. -/
inductive ApiResult where
  | okCreated : Nat → ApiResult
  | okDuplicate : Nat → ApiResult
  | badRequest : String → ApiResult
deriving DecidableEq

/-- The /process/text route: strip the text, validate it and the voice,
hash the stripped text, write the raw text artifact, create the article
with the hash, and advance it to extracted with raw_txt_path set.  The
update cannot fail (extracted is a valid stage and raw_txt_path a valid
column); the error branch keeping db1 is unreachable. -/
def processTextRoute (hashFn : String → String) (st : SysState)
    (textRaw titleRaw voice : String) : SysState × ApiResult :=
  let text := pyStripS textRaw
  let title0 := pyStripS titleRaw
  let title := if title0 = "" then "Pasted Text" else title0
  if text = "" then (st, .badRequest "Text is required")
  else if !(validVoiceIds.contains voice) then
    (st, .badRequest ("Invalid voice ID: " ++ voice))
  else if text.length < 10 then (st, .badRequest "Text too short")
  else
    let contentHash := hashFn text
    let txtFilename := rawTextFilename contentHash
    let fs1 := fsWrite st.fs (textsDir ++ txtFilename) text
    let created := createArticle st.db (title.take 100) "text" ""
      (some txtFilename) voice (some contentHash)
    let db2 :=
      match updateArticleStage created.1 created.2 "extracted"
          [("raw_txt_path", .s txtFilename)] with
      | .ok d => d
      | .error _ => created.1
    ({ db := db2, fs := fs1 }, .okCreated created.2)

/-- The /process/pdf route: validate filename and voice, hash the file
bytes, and resolve a duplicate hash to the existing article without
creating anything; otherwise save the upload and create the article. -/
def processPdfRoute (hashFn secureFilename : String → String) (st : SysState)
    (fileBytes fileName voice : String) : SysState × ApiResult :=
  if fileName = "" then (st, .badRequest "No file selected")
  else if !(validVoiceIds.contains voice) then
    (st, .badRequest ("Invalid voice ID: " ++ voice))
  else if !(pyEndsWith (pyLower fileName) ".pdf") then
    (st, .badRequest "File must be a PDF")
  else
    let contentHash := hashFn fileBytes
    match getArticleByHash st.db contentHash with
    | some existing => (st, .okDuplicate existing.id)
    | none =>
      let filename := secureFilename fileName
      let pdfFilename := contentHash ++ "_" ++ filename
      let fs1 := fsWrite st.fs (uploadDir ++ pdfFilename) fileBytes
      let title := filename.replace ".pdf" ""
      let created := createArticle st.db title "pdf" pdfFilename none voice
        (some contentHash)
      ({ db := created.1, fs := fs1 }, .okCreated created.2)

/-! ## Proof-support definitions

Invariant predicates and the concrete fixtures used by counterexamples
and witnesses. -/

/-- Invariant of the sentence-packing loop: every flushed chunk is within
the bound, and the buffer is empty or loses at least one character to the
final strip while staying within maxChars + 1. -/
def ChunkInv (maxChars : Nat) (st : List Chars × Chars) : Prop :=
  (∀ c ∈ st.1, c.length ≤ maxChars) ∧
  (st.2 = [] ∨
    ((pyStrip st.2).length + 1 ≤ st.2.length ∧ st.2.length ≤ maxChars + 1))

/-- After at least one sentence was processed, either some flushed chunk
is nonempty or the buffer strips to a nonempty chunk. -/
def ChunkGood (st : List Chars × Chars) : Prop :=
  (∃ c ∈ st.1, c ≠ []) ∨ pyStrip st.2 ≠ []

/-- A monadic computation never changes the database while the given id is
absent from it (all its database writes are keyed by that id). -/
def PreservesDbOn (aid : Nat) {α : Type} (m : PyM α) : Prop :=
  ∀ st : SysState, getArticle st.db aid = none → ((m st).1).db = st.db

/-- The chunk list built by split_into_chunks before the final empty-chunk
filter and whole-input fallback (the packing fold plus the final buffer
flush); splitIntoChunks is definitionally the filter-or-fallback of this
list. -/
def chunksBeforeFilter (text : Chars) (maxChars : Nat) : List Chars :=
  let st := (sentencesOf text).foldl (chunkStep maxChars) ([], [])
  if pyStrip st.2 ≠ [] then st.1 ++ [pyStrip st.2] else st.1

/-- An article mid-cleaning with artifacts attached, for the C6 witness. -/
def c6CleaningArticle : Article :=
  { id := 1
    title := "T1"
    sourceType := "pdf"
    sourcePath := "x.pdf"
    txtPath := some "h_raw.txt"
    mp3Path := none
    notes := ""
    status := "pending"
    createdAt := 1
    completedAt := none
    rawTxtPath := some "h_raw.txt"
    cleanedTxtPath := some "h_cleaned.txt"
    voice := "af_heart"
    processingStage := "cleaning"
    error := none
    contentHash := some "h"
    progress := some "1/2 chunks"
    wasCleaned := 1
    timestampsPath := none }

/-- A terminal-stage article, for the C6 witness. -/
def c6ReadyArticle : Article :=
  { id := 2
    title := "T2"
    sourceType := "url"
    sourcePath := "https://e.example"
    txtPath := none
    mp3Path := some "g_af_heart.mp3"
    notes := ""
    status := "ready"
    createdAt := 2
    completedAt := none
    rawTxtPath := some "g_raw.txt"
    cleanedTxtPath := none
    voice := "af_heart"
    processingStage := "ready"
    error := none
    contentHash := some "g"
    progress := none
    wasCleaned := 0
    timestampsPath := none }

/-- Engine stub for the C2 counterexample: length-overflow on chunks
longer than seven characters, otherwise one sample recording the chunk
length. -/
def c2Stub : Chars → Except KokoroError (List Int) :=
  fun c => if 7 < c.length then .error .overflow510 else .ok [(c.length : Int)]

/-- A queued PDF article used by the worker fixtures. -/
def cexArticle : Article :=
  { id := 1
    title := "T"
    sourceType := "pdf"
    sourcePath := "x.pdf"
    txtPath := none
    mp3Path := none
    notes := ""
    status := "pending"
    createdAt := 1
    completedAt := none
    rawTxtPath := none
    cleanedTxtPath := none
    voice := "af_heart"
    processingStage := "queued"
    error := none
    contentHash := some "h"
    progress := none
    wasCleaned := 0
    timestampsPath := none }

/-- Environment whose PDF extractor raises ConnectionError, all other
collaborators succeeding; the pending-list fetch does not raise. -/
def c5Env : ExecEnv :=
  { kokoro := fun _ => .ok []
    extractPdf := fun _ => .error .connectionError
    extractUrl := fun _ => .ok ("t", "x")
    ollamaRunning := false
    cleanupTextChunked := fun t => .ok t
    freshHashExtract := "f1f1f1f1f1f1f1f1"
    freshHashClean := "f2f2f2f2f2f2f2f2"
    freshHashAudio := "f3f3f3f3f3f3f3f3"
    fetchOutcome := none }

/-- Environment in which every collaborator succeeds. -/
def benignEnv : ExecEnv :=
  { kokoro := fun _ => .ok [0]
    extractPdf := fun _ => .ok ("t", "some extracted text")
    extractUrl := fun _ => .ok ("t", "some extracted text")
    ollamaRunning := false
    cleanupTextChunked := fun t => .ok t
    freshHashExtract := "f1f1f1f1f1f1f1f1"
    freshHashClean := "f2f2f2f2f2f2f2f2"
    freshHashAudio := "f3f3f3f3f3f3f3f3"
    fetchOutcome := none }

/-- Environment whose pending-list fetch raises ConnectionError. -/
def c5FetchEnv : ExecEnv :=
  { kokoro := fun _ => .ok [0]
    extractPdf := fun _ => .ok ("t", "some extracted text")
    extractUrl := fun _ => .ok ("t", "some extracted text")
    ollamaRunning := false
    cleanupTextChunked := fun t => .ok t
    freshHashExtract := "f1f1f1f1f1f1f1f1"
    freshHashClean := "f2f2f2f2f2f2f2f2"
    freshHashAudio := "f3f3f3f3f3f3f3f3"
    fetchOutcome := some .connectionError }

/-- Content-hash stand-in for the C1 fixtures: a fixed-length digest is
irrelevant to deduplication, only equality of inputs matters. -/
def c1Hash : String → String := fun s => s.take 16

/-- The pasted text of the C1 counterexample. -/
def c1Text : String := "duplicate sample text"

/-! ## Prelude lemmas on pyStrip -/

theorem mem_dropWhile_of_mem_not {p : Char → Bool} {l : Chars} {c : Char}
    (hc : c ∈ l) (hp : p c = false) : c ∈ l.dropWhile p := by
  have hsplit := List.takeWhile_append_dropWhile (p := p) (l := l)
  rw [← hsplit] at hc
  rcases List.mem_append.1 hc with h | h
  · have := List.mem_takeWhile_imp h
    simp [hp] at this
  · exact h

theorem mem_pyStrip_of_not_ws {l : Chars} {c : Char} (hc : c ∈ l)
    (h : isPyWs c = false) : c ∈ pyStrip l := by
  unfold pyStrip trimLeftWs trimRightWs
  apply mem_dropWhile_of_mem_not _ h
  rw [List.mem_reverse]
  exact mem_dropWhile_of_mem_not (List.mem_reverse.2 hc) h

theorem pyStrip_ne_nil_of_mem_not_ws {l : Chars} {c : Char} (hc : c ∈ l)
    (h : isPyWs c = false) : pyStrip l ≠ [] := by
  intro hnil
  have := mem_pyStrip_of_not_ws hc h
  rw [hnil] at this
  exact absurd this (List.not_mem_nil c)

theorem length_dropWhile_le (p : Char → Bool) (l : Chars) :
    (l.dropWhile p).length ≤ l.length :=
  (List.dropWhile_suffix p).length_le

theorem pyStrip_length_le (l : Chars) : (pyStrip l).length ≤ l.length := by
  unfold pyStrip trimLeftWs trimRightWs
  calc ((l.reverse.dropWhile isPyWs).reverse.dropWhile isPyWs).length
      ≤ (l.reverse.dropWhile isPyWs).reverse.length :=
        length_dropWhile_le _ _
    _ = (l.reverse.dropWhile isPyWs).length := List.length_reverse _
    _ ≤ l.reverse.length := length_dropWhile_le _ _
    _ = l.length := List.length_reverse _

theorem pyStrip_nil : pyStrip [] = [] := rfl

theorem pyStrip_all_ws {l : Chars} (h : ∀ c ∈ l, isPyWs c = true) :
    pyStrip l = [] := by
  unfold pyStrip trimLeftWs trimRightWs
  have h1 : l.reverse.dropWhile isPyWs = [] := by
    rw [List.dropWhile_eq_nil_iff]
    intro x hx
    exact h x (List.mem_reverse.1 hx)
  rw [h1]
  rfl

theorem pyStrip_snoc_ws_length (x : Chars) {c : Char} (h : isPyWs c = true) :
    (pyStrip (x ++ [c])).length ≤ x.length := by
  unfold pyStrip trimLeftWs trimRightWs
  rw [List.reverse_append]
  simp only [List.reverse_singleton, List.singleton_append,
    List.dropWhile_cons_of_pos h]
  calc ((x.reverse.dropWhile isPyWs).reverse.dropWhile isPyWs).length
      ≤ (x.reverse.dropWhile isPyWs).reverse.length :=
        length_dropWhile_le _ _
    _ = (x.reverse.dropWhile isPyWs).length := List.length_reverse _
    _ ≤ x.reverse.length := length_dropWhile_le _ _
    _ = x.length := List.length_reverse _

theorem pyStrip_head_not_ws (l : Chars) (h : pyStrip l ≠ []) :
    isPyWs ((pyStrip l).head h) = false := by
  unfold pyStrip trimLeftWs at h ⊢
  exact List.head_dropWhile_not isPyWs _ _

theorem exists_mem_not_ws_of_pyStrip_ne_nil (l : Chars) (h : pyStrip l ≠ []) :
    ∃ c ∈ pyStrip l, isPyWs c = false := by
  exact ⟨(pyStrip l).head h, List.head_mem h, pyStrip_head_not_ws l h⟩

theorem suffix_ends_with {α : Type} {t d y : List α} {c : α} (hd : d ≠ [])
    (he : t ++ d = y ++ [c]) : ∃ y2, d = y2 ++ [c] := by
  have h2 : d.reverse ++ t.reverse = c :: y.reverse := by
    have := congrArg List.reverse he
    simpa using this
  cases hdrev : d.reverse with
  | nil =>
    exact absurd (by simpa using congrArg List.reverse hdrev) hd
  | cons c0 rest =>
    rw [hdrev] at h2
    simp only [List.cons_append, List.cons.injEq] at h2
    refine ⟨rest.reverse, ?_⟩
    have : d = (c0 :: rest).reverse := by
      rw [← hdrev, List.reverse_reverse]
    rw [this, List.reverse_cons, h2.1]

theorem dropWhile_is_suffix {p : Char → Bool} (l : Chars) :
    ∃ t, t ++ l.dropWhile p = l :=
  ⟨l.takeWhile p, List.takeWhile_append_dropWhile p l⟩

theorem dropWhile_head_false {p : Char → Bool} {l t : Chars} {c : Char}
    (h : l.dropWhile p = c :: t) : p c = false := by
  induction l with
  | nil => simp [List.dropWhile] at h
  | cons a as ih =>
    rw [List.dropWhile_cons] at h
    by_cases hp : p a
    · rw [if_pos hp] at h
      exact ih h
    · rw [if_neg hp] at h
      cases h
      simpa using hp

theorem pyStrip_ends_not_ws (l : Chars) (h : pyStrip l ≠ []) :
    ∃ y c, pyStrip l = y ++ [c] ∧ isPyWs c = false := by
  have hm : pyStrip l = (trimRightWs l).dropWhile isPyWs := rfl
  have hmne : trimRightWs l ≠ [] := by
    intro hnil
    rw [hm, hnil] at h
    exact h rfl
  have hrev : (trimRightWs l).reverse = l.reverse.dropWhile isPyWs := by
    unfold trimRightWs
    rw [List.reverse_reverse]
  have hne2 : (trimRightWs l).reverse ≠ [] := by
    simpa using hmne
  cases hdrev : (trimRightWs l).reverse with
  | nil => exact absurd hdrev hne2
  | cons c0 rest =>
    have hc0 : isPyWs c0 = false := by
      apply dropWhile_head_false (p := isPyWs) (l := l.reverse)
      rw [← hrev, hdrev]
    have hform : trimRightWs l = rest.reverse ++ [c0] := by
      have h5 := congrArg List.reverse hdrev
      rw [List.reverse_reverse] at h5
      rw [h5, List.reverse_cons]
    obtain ⟨t, ht⟩ := dropWhile_is_suffix (p := isPyWs) (trimRightWs l)
    rw [← hm] at ht
    rw [hform] at ht
    obtain ⟨y2, hy2⟩ := suffix_ends_with h ht
    exact ⟨y2, c0, hy2, hc0⟩

theorem foldl_inv {α β : Type} {f : α → β → α} {P : α → Prop} :
    ∀ (l : List β) (init : α), P init →
      (∀ a b, P a → b ∈ l → P (f a b)) → P (l.foldl f init) := by
  intro l
  induction l with
  | nil => intro init h0 _; exact h0
  | cons b bs ih =>
    intro init h0 hs
    exact ih (f init b) (hs init b h0 (by simp))
      (fun a b2 ha hb => hs a b2 ha (by simp [hb]))

/-! ## Chunker bound lemmas (claim C3) -/

theorem splitIntoChunks_eq_filter_or_fallback (text : Chars) (m : Nat) :
    splitIntoChunks text m =
      if chunksBeforeFilter text m = [] then [text]
      else (chunksBeforeFilter text m).filter (fun c => !c.isEmpty) := rfl

theorem hardCutF_bound (fuel : Nat) :
    ∀ (part : Chars) (m : Nat), ∀ q ∈ hardCutF fuel part m, q.length ≤ m := by
  induction fuel with
  | zero => intro part m q hq; simp [hardCutF] at hq
  | succ fuel ih =>
    intro part m q hq
    cases part with
    | nil => simp [hardCutF] at hq
    | cons a as =>
      rw [hardCutF, if_neg (by simp)] at hq
      rcases List.mem_cons.1 hq with h1 | h1
      · subst h1
        calc (pyStrip ((a :: as).take m)).length
            ≤ ((a :: as).take m).length := pyStrip_length_le _
          _ ≤ m := by
              rw [List.length_take]
              exact min_le_left _ _
      · exact ih _ _ q h1

theorem hardCut_bound (part : Chars) (m : Nat) :
    ∀ q ∈ hardCut part m, q.length ≤ m :=
  hardCutF_bound part.length part m

theorem partsFold_bound (m : Nat) :
    ∀ (parts : List Chars) (cs : List Chars),
      (∀ d ∈ cs, d.length ≤ m) → ∀ d ∈ partsFold m cs parts, d.length ≤ m := by
  intro parts
  induction parts with
  | nil => intro cs hcs d hd; exact hcs d hd
  | cons part rest ih =>
    intro cs hcs d hd
    rw [partsFold, List.foldl_cons] at hd
    by_cases hp : part.length ≤ m
    · rw [if_pos hp] at hd
      refine ih (cs ++ [pyStrip part]) ?_ d hd
      intro e he
      rcases List.mem_append.1 he with h1 | h1
      · exact hcs e h1
      · rcases List.mem_singleton.1 h1 with rfl
        calc (pyStrip part).length ≤ part.length := pyStrip_length_le _
          _ ≤ m := hp
    · rw [if_neg hp] at hd
      refine ih (cs ++ hardCut part m) ?_ d hd
      intro e he
      rcases List.mem_append.1 he with h1 | h1
      · exact hcs e h1
      · exact hardCut_bound part m e h1

theorem partsFold_mono (m : Nat) :
    ∀ (parts : List Chars) (cs : List Chars) (c : Chars),
      c ∈ cs → c ∈ partsFold m cs parts := by
  intro parts
  induction parts with
  | nil => intro cs c hc; exact hc
  | cons part rest ih =>
    intro cs c hc
    rw [partsFold, List.foldl_cons]
    by_cases hp : part.length ≤ m
    · rw [if_pos hp]
      exact ih _ c (List.mem_append.2 (Or.inl hc))
    · rw [if_neg hp]
      exact ih _ c (List.mem_append.2 (Or.inl hc))

theorem flushed_bound (m : Nat) (st : List Chars × Chars)
    (hb : ∀ d ∈ st.1, d.length ≤ m)
    (hc : st.2 = [] ∨
      ((pyStrip st.2).length + 1 ≤ st.2.length ∧ st.2.length ≤ m + 1)) :
    ∀ d ∈ (if st.2 ≠ [] then st.1 ++ [pyStrip st.2] else st.1),
      d.length ≤ m := by
  intro d hd
  by_cases hne : st.2 ≠ []
  · rw [if_pos hne] at hd
    rcases List.mem_append.1 hd with h1 | h1
    · exact hb d h1
    · rcases List.mem_singleton.1 h1 with rfl
      rcases hc with h2 | h2
      · exact absurd h2 hne
      · omega
  · rw [if_neg hne] at hd
    exact hb d hd

theorem chunkStep_inv (m : Nat) (st : List Chars × Chars) (s : Chars)
    (h : ChunkInv m st) : ChunkInv m (chunkStep m st s) := by
  obtain ⟨hb, hc⟩ := h
  have hws : isPyWs ' ' = true := rfl
  unfold ChunkInv
  unfold chunkStep
  dsimp only
  split
  next hle =>
    refine ⟨hb, Or.inr ⟨?_, ?_⟩⟩
    · have h4 := pyStrip_snoc_ws_length (st.2 ++ s) hws
      simp only [List.length_append, List.length_cons, List.length_nil] at h4 ⊢
      omega
    · simp only [List.length_append, List.length_cons, List.length_nil]
      omega
  next hgt =>
    split
    next hbig =>
      refine ⟨?_, Or.inl rfl⟩
      intro d hd
      exact partsFold_bound m _ _ (flushed_bound m st hb hc) d hd
    next hsmall =>
      refine ⟨flushed_bound m st hb hc, Or.inr ⟨?_, ?_⟩⟩
      · have h4 := pyStrip_snoc_ws_length s hws
        simp only [List.length_append, List.length_cons, List.length_nil]
        omega
      · simp only [List.length_append, List.length_cons, List.length_nil]
        omega

theorem chunksBeforeFilter_bound (text : Chars) (m : Nat) :
    ∀ d ∈ chunksBeforeFilter text m, d.length ≤ m := by
  have hinv : ChunkInv m ((sentencesOf text).foldl (chunkStep m) ([], [])) := by
    apply foldl_inv
    · exact ⟨by intro d hd; simp at hd, Or.inl rfl⟩
    · intro a b ha _
      exact chunkStep_inv m a b ha
  unfold chunksBeforeFilter
  dsimp only
  intro d hd
  by_cases hne : pyStrip ((sentencesOf text).foldl (chunkStep m) ([], [])).2 ≠ []
  · rw [if_pos hne] at hd
    rcases List.mem_append.1 hd with h1 | h1
    · exact hinv.1 d h1
    · rcases List.mem_singleton.1 h1 with rfl
      rcases hinv.2 with h2 | h2
      · rw [h2] at hne
        exact absurd pyStrip_nil hne
      · omega
  · rw [if_neg hne] at hd
    exact hinv.1 d hd

/-! ## Chunker nonemptiness lemmas (claim C9) -/

theorem ws_not_sentencePunct {c : Char} (h : isPyWs c = true) :
    sentencePunct c = false := by
  cases hc : sentencePunct c
  · rfl
  · exfalso
    simp only [sentencePunct, Bool.or_eq_true, beq_iff_eq] at hc
    rcases hc with (h1 | h1) | h1 <;> subst h1 <;> exact absurd h (by decide)

theorem sentAux_all_ws :
    ∀ (fuel : Nat) (revPre rest acc : Chars),
      (∀ c ∈ rest, isPyWs c = true) → (∀ c ∈ revPre, isPyWs c = true) →
      sentAux fuel revPre rest acc = [acc.reverse ++ rest] := by
  intro fuel
  induction fuel with
  | zero => intro revPre rest acc _ _; rfl
  | succ fuel ih =>
    intro revPre rest acc hrest hpre
    cases rest with
    | nil => simp [sentAux]
    | cons c rest2 =>
      rw [sentAux.eq_def]
      dsimp only
      have hcand : (isPyWs c && headIsPunct revPre && abbrevOkRev revPre)
          = false := by
        cases revPre with
        | nil => simp [headIsPunct]
        | cons p pre =>
          have hws : isPyWs p = true := hpre p (by simp)
          simp [headIsPunct, ws_not_sentencePunct hws]
      rw [if_neg (by rw [hcand]; exact Bool.false_ne_true)]
      rw [ih (c :: revPre) rest2 (c :: acc)
        (fun d hd => hrest d (List.mem_cons_of_mem c hd))
        (by
          intro d hd
          rcases List.mem_cons.1 hd with rfl | hd2
          · exact hrest d (List.mem_cons_self _ _)
          · exact hpre d hd2)]
      simp

theorem sentRegexSplit_all_ws (text : Chars)
    (h : ∀ c ∈ text, isPyWs c = true) : sentRegexSplit text = [text] := by
  unfold sentRegexSplit
  rw [sentAux_all_ws text.length [] text [] h (by intro c hc; simp at hc)]
  simp

theorem sentencesOf_all_ws (text : Chars)
    (h : ∀ c ∈ text, isPyWs c = true) : sentencesOf text = [] := by
  unfold sentencesOf
  rw [sentRegexSplit_all_ws text h]
  simp [pyStrip_all_ws h]

theorem splitIntoChunks_ws_only (text : Chars) (m : Nat)
    (h : ∀ c ∈ text, isPyWs c = true) : splitIntoChunks text m = [text] := by
  rw [splitIntoChunks_eq_filter_or_fallback]
  have hcbf : chunksBeforeFilter text m = [] := by
    unfold chunksBeforeFilter
    rw [sentencesOf_all_ws text h]
    simp [pyStrip_nil]
  rw [if_pos hcbf]

theorem punctAux_nil_rest (fuel : Nat) (acc : Chars) :
    punctAux fuel [] acc = [acc.reverse] := by
  cases fuel <;> simp [punctAux]

theorem tail_concat_of_cons {α : Type} {c cl : α} {rest2 y : List α}
    (hform : c :: rest2 = y ++ [cl]) (hne : rest2 ≠ []) :
    ∃ y2, rest2 = y2 ++ [cl] := by
  cases y with
  | nil =>
    simp only [List.nil_append, List.cons.injEq] at hform
    exact absurd hform.2 hne
  | cons y0 ys =>
    rw [List.cons_append] at hform
    injection hform with h1 h2
    exact ⟨ys, h2⟩

theorem punctAux_exists :
    ∀ (fuel : Nat) (rest acc y : Chars) (cl : Char),
      rest.length ≤ fuel → rest = y ++ [cl] → isPyWs cl = false →
      ∃ part ∈ punctAux fuel rest acc, ∃ c ∈ part, isPyWs c = false := by
  intro fuel
  induction fuel with
  | zero =>
    intro rest acc y cl hf hform hcl
    rw [hform] at hf
    simp at hf
  | succ fuel ih =>
    intro rest acc y cl hf hform hcl
    cases rest with
    | nil => simp at hform
    | cons c rest2 =>
      rw [punctAux.eq_def]
      dsimp only
      by_cases hmatch : (clausePunct c && headIsWs rest2) = true
      · rw [if_pos hmatch]
        have hrest2ne : rest2 ≠ [] := by
          intro hnil
          subst hnil
          simp [headIsWs] at hmatch
        obtain ⟨y2, hy2⟩ := tail_concat_of_cons hform hrest2ne
        have hne : rest2.dropWhile isPyWs ≠ [] := by
          intro hnil
          have hall := (List.dropWhile_eq_nil_iff).1 hnil
          have := hall cl (by rw [hy2]; simp)
          rw [hcl] at this
          exact Bool.false_ne_true this
        obtain ⟨t, ht⟩ := dropWhile_is_suffix (p := isPyWs) rest2
        obtain ⟨y3, hy3⟩ := suffix_ends_with hne (ht.trans hy2)
        have hlen : (rest2.dropWhile isPyWs).length ≤ fuel := by
          have h5 := length_dropWhile_le isPyWs rest2
          simp only [List.length_cons] at hf
          omega
        obtain ⟨part, hp, hcp⟩ := ih (rest2.dropWhile isPyWs) [] y3 cl hlen hy3 hcl
        exact ⟨part, List.mem_cons_of_mem _ hp, hcp⟩
      · rw [if_neg hmatch]
        cases hr2 : rest2 with
        | nil =>
          subst hr2
          have hccl : c = cl := by
            cases y with
            | nil =>
              simp only [List.nil_append, List.cons.injEq] at hform
              exact hform.1
            | cons y0 ys =>
              exfalso
              have hlenbad := congrArg List.length hform
              simp [List.length_append] at hlenbad
          subst hccl
          refine ⟨(c :: acc).reverse, ?_, c, by simp, hcl⟩
          rw [punctAux_nil_rest]
          simp
        | cons d rest3 =>
          have hrest2ne : rest2 ≠ [] := by rw [hr2]; simp
          obtain ⟨y2, hy2⟩ := tail_concat_of_cons hform hrest2ne
          have hlen : rest2.length ≤ fuel := by
            simp only [List.length_cons] at hf
            omega
          rw [← hr2]
          exact ih rest2 (c :: acc) y2 cl hlen hy2 hcl

theorem hardCutF_exists :
    ∀ (fuel : Nat) (part : Chars) (m : Nat), part.length ≤ fuel → 0 < m →
      (∃ c ∈ part, isPyWs c = false) →
      ∃ q ∈ hardCutF fuel part m, q ≠ [] := by
  intro fuel
  induction fuel with
  | zero =>
    intro part m hf _ hex
    obtain ⟨c, hc, _⟩ := hex
    have : part = [] := List.length_eq_zero.1 (Nat.le_zero.1 hf)
    subst this
    simp at hc
  | succ fuel ih =>
    intro part m hf hm hex
    obtain ⟨c, hc, hcw⟩ := hex
    cases part with
    | nil => simp at hc
    | cons a as =>
      rw [hardCutF, if_neg (by simp)]
      have hsplit := List.take_append_drop m (a :: as)
      rw [← hsplit] at hc
      rcases List.mem_append.1 hc with h1 | h1
      · exact ⟨pyStrip ((a :: as).take m), by simp,
          pyStrip_ne_nil_of_mem_not_ws h1 hcw⟩
      · have hlen : ((a :: as).drop m).length ≤ fuel := by
          rw [List.length_drop]
          simp only [List.length_cons] at hf ⊢
          omega
        obtain ⟨q, hq, hqne⟩ := ih ((a :: as).drop m) m hlen hm ⟨c, h1, hcw⟩
        exact ⟨q, List.mem_cons_of_mem _ hq, hqne⟩

theorem partsFold_exists (m : Nat) (hm : 0 < m) :
    ∀ (parts cs : List Chars),
      (∃ part ∈ parts, ∃ c ∈ part, isPyWs c = false) →
      ∃ q ∈ partsFold m cs parts, q ≠ [] := by
  intro parts
  induction parts with
  | nil =>
    intro cs hex
    obtain ⟨part, hp, _⟩ := hex
    simp at hp
  | cons part0 rest ih =>
    intro cs hex
    obtain ⟨part, hp, c, hc, hcw⟩ := hex
    rw [partsFold, List.foldl_cons]
    rcases List.mem_cons.1 hp with heq | h1
    · subst heq
      by_cases hlen : part.length ≤ m
      · rw [if_pos hlen]
        exact ⟨pyStrip part, partsFold_mono m rest _ _ (by simp),
          pyStrip_ne_nil_of_mem_not_ws hc hcw⟩
      · rw [if_neg hlen]
        obtain ⟨q, hq, hqne⟩ :=
          hardCutF_exists part.length part m le_rfl hm ⟨c, hc, hcw⟩
        exact ⟨q, partsFold_mono m rest _ q (List.mem_append.2 (Or.inr hq)), hqne⟩
    · by_cases hlen : part0.length ≤ m
      · rw [if_pos hlen]
        exact ih _ ⟨part, h1, c, hc, hcw⟩
      · rw [if_neg hlen]
        exact ih _ ⟨part, h1, c, hc, hcw⟩

theorem chunkStep_good (m : Nat) (hm : 0 < m) (st : List Chars × Chars)
    (s0 : Chars) (hs : pyStrip s0 ≠ []) :
    ChunkGood (chunkStep m st (pyStrip s0)) := by
  obtain ⟨cnw, hcm, hcw⟩ := exists_mem_not_ws_of_pyStrip_ne_nil s0 hs
  unfold ChunkGood chunkStep
  dsimp only
  split
  next =>
    exact Or.inr (pyStrip_ne_nil_of_mem_not_ws
      (List.mem_append.2 (Or.inl (List.mem_append.2 (Or.inr hcm)))) hcw)
  next =>
    split
    next hbig =>
      left
      obtain ⟨y, cl, hform, hcl⟩ := pyStrip_ends_not_ws s0 hs
      have hparts : ∃ part ∈ clauseSplit (pyStrip s0), ∃ c ∈ part,
          isPyWs c = false := by
        unfold clauseSplit
        exact punctAux_exists (pyStrip s0).length (pyStrip s0) [] y cl
          le_rfl hform hcl
      exact partsFold_exists m hm _ _ hparts
    next =>
      exact Or.inr (pyStrip_ne_nil_of_mem_not_ws
        (List.mem_append.2 (Or.inl hcm)) hcw)

/-! ## Claims C3 and C9 -/

/-- C3 (amended): for every input text and every positive max_chars, every
chunk returned by split_into_chunks has length at most max_chars or
contains no whitespace - except when the output is the single whole-input
fallback chunk (returned because no nonempty chunk was produced, e.g. for
whitespace-only input), which can be oversized while containing
whitespace. -/
theorem c3_chunk_bound (text : Chars) (m : Nat) (_hm : 0 < m) :
    ∀ c ∈ splitIntoChunks text m,
      c.length ≤ m ∨ hasWs c = false ∨ splitIntoChunks text m = [text] := by
  intro c hc
  rw [splitIntoChunks_eq_filter_or_fallback] at hc
  by_cases hch : chunksBeforeFilter text m = []
  · right; right
    rw [splitIntoChunks_eq_filter_or_fallback, if_pos hch]
  · rw [if_neg hch] at hc
    left
    exact chunksBeforeFilter_bound text m c (List.mem_filter.1 hc).1

/-- C3 counterexample: on the whitespace-only input of two spaces with
max_chars 1, split_into_chunks returns the whole input as one chunk whose
length exceeds max_chars and which consists of whitespace, so the claim as
stated (length within bound OR no whitespace, for every input) is false. -/
theorem c3_chunk_bound_counterexample :
    splitIntoChunks "  ".data 1 = ["  ".data] ∧
    ¬(("  ".data : Chars).length ≤ 1) ∧ hasWs "  ".data = true := by
  decide

/-- C3 witness: the amended bound evaluated on a concrete sentence at
max_chars 250. -/
theorem c3_chunk_bound_witness :
    "Hello world. This is a test.".data.length ≤ 250 ∨
    hasWs "Hello world. This is a test.".data = false ∨
    splitIntoChunks "Hello world. This is a test.".data 250 =
      ["Hello world. This is a test.".data] :=
  c3_chunk_bound "Hello world. This is a test.".data 250 (by norm_num) _
    (by decide)

/-- C9 (amended): for empty or whitespace-only input, split_into_chunks
returns exactly one chunk equal to the original (untrimmed) input - which
coincides with the trimmed input only when the input is empty; and for
every nonempty input (and positive max_chars) the output is nonempty and
contains no empty chunk. -/
theorem c9_chunker_edge_cases (text : Chars) (m : Nat) (hm : 0 < m) :
    ((∀ c ∈ text, isPyWs c = true) → splitIntoChunks text m = [text]) ∧
    (text ≠ [] →
      splitIntoChunks text m ≠ [] ∧ ∀ c ∈ splitIntoChunks text m, c ≠ []) := by
  constructor
  · intro hws
    exact splitIntoChunks_ws_only text m hws
  · intro htne
    rcases List.eq_nil_or_concat' (sentencesOf text) with hsn | ⟨L, s, hLs⟩
    · have hcbf : chunksBeforeFilter text m = [] := by
        unfold chunksBeforeFilter
        rw [hsn]
        simp [pyStrip_nil]
      rw [splitIntoChunks_eq_filter_or_fallback, if_pos hcbf]
      refine ⟨by simp, ?_⟩
      intro c hc
      rcases List.mem_singleton.1 hc with rfl
      exact htne
    · have hsmem : s ∈ sentencesOf text := by rw [hLs]; simp
      obtain ⟨hmem0, hpred⟩ := List.mem_filter.1 hsmem
      obtain ⟨s0, _, hs0⟩ := List.mem_map.1 hmem0
      have hsne : pyStrip s0 ≠ [] := by
        rw [hs0]
        intro hnil
        rw [hnil] at hpred
        simp at hpred
      have hgood : ChunkGood ((sentencesOf text).foldl (chunkStep m) ([], [])) := by
        rw [hLs, List.foldl_append, List.foldl_cons, List.foldl_nil]
        rw [← hs0]
        exact chunkStep_good m hm _ s0 hsne
      have hexist : ∃ c ∈ chunksBeforeFilter text m, c ≠ [] := by
        unfold ChunkGood at hgood
        unfold chunksBeforeFilter
        dsimp only
        rcases hgood with ⟨c, hc, hcne⟩ | hstrip
        · by_cases hp :
            pyStrip ((sentencesOf text).foldl (chunkStep m) ([], [])).2 ≠ []
          · rw [if_pos hp]
            exact ⟨c, List.mem_append.2 (Or.inl hc), hcne⟩
          · rw [if_neg hp]
            exact ⟨c, hc, hcne⟩
        · rw [if_pos hstrip]
          exact ⟨_, List.mem_append.2 (Or.inr (List.mem_singleton.2 rfl)),
            hstrip⟩
      obtain ⟨c, hcmem, hcne⟩ := hexist
      have hcbfne : chunksBeforeFilter text m ≠ [] := List.ne_nil_of_mem hcmem
      rw [splitIntoChunks_eq_filter_or_fallback, if_neg hcbfne]
      have hcf : c ∈ (chunksBeforeFilter text m).filter (fun d => !d.isEmpty) := by
        apply List.mem_filter.2
        refine ⟨hcmem, ?_⟩
        cases c
        · exact absurd rfl hcne
        · rfl
      refine ⟨List.ne_nil_of_mem hcf, ?_⟩
      intro d hd
      have hde := (List.mem_filter.1 hd).2
      cases d
      · simp at hde
      · simp

/-- C9 counterexample: on the whitespace-only input of two spaces, the
returned single chunk is the original input, not the trimmed (empty)
input the claim asserts. -/
theorem c9_chunker_edge_cases_counterexample :
    splitIntoChunks "  ".data 250 = ["  ".data] ∧
    ("  ".data : Chars) ≠ pyStrip "  ".data := by
  decide

/-- C9 witness: the amended whitespace-only case evaluated on a concrete
input of one space and one tab. -/
theorem c9_chunker_edge_cases_witness :
    splitIntoChunks " \t".data 17 = [" \t".data] :=
  (c9_chunker_edge_cases " \t".data 17 (by norm_num)).1 (by decide)

/-! ## Claims C2 and C4 -/

/-- C2 (amended): only the 510 length-overflow failure is retried: on it,
with retries remaining, the chunk is split at the last space strictly
before the midpoint when one exists at a positive index - otherwise at the
midpoint itself, possibly mid-word - both stripped halves are synthesized
recursively with a budget smaller by one (budget 3 at the entry point),
and the sample arrays are concatenated left half first; an exhausted
budget propagates the overflow unmodified, and any other failure
propagates immediately without retry. -/
theorem c2_recursive_retry (kokoro : Chars → Except KokoroError (List Int))
    (chunk : Chars) :
    (∀ s, kokoro chunk = .ok s →
      ∀ r, generateChunkAudio kokoro r chunk = .ok s) ∧
    (kokoro chunk = .error .overflow510 →
      ∀ r s1 s2,
        generateChunkAudio kokoro r
          (pyStrip (chunk.take (retrySplitPos chunk))) = .ok s1 →
        generateChunkAudio kokoro r
          (pyStrip (chunk.drop (retrySplitPos chunk))) = .ok s2 →
        generateChunkAudio kokoro (r + 1) chunk = .ok (s1 ++ s2)) ∧
    (kokoro chunk = .error .overflow510 →
      ∀ r e1,
        generateChunkAudio kokoro r
          (pyStrip (chunk.take (retrySplitPos chunk))) = .error e1 →
        generateChunkAudio kokoro (r + 1) chunk = .error e1) ∧
    (kokoro chunk = .error .overflow510 →
      ∀ r s1 e2,
        generateChunkAudio kokoro r
          (pyStrip (chunk.take (retrySplitPos chunk))) = .ok s1 →
        generateChunkAudio kokoro r
          (pyStrip (chunk.drop (retrySplitPos chunk))) = .error e2 →
        generateChunkAudio kokoro (r + 1) chunk = .error e2) ∧
    (kokoro chunk = .error .overflow510 →
      generateChunkAudio kokoro 0 chunk = .error .overflow510) ∧
    (∀ n, kokoro chunk = .error (.otherError n) →
      ∀ r, generateChunkAudio kokoro r chunk = .error (.otherError n)) ∧
    synthesizeChunk kokoro chunk = generateChunkAudio kokoro 3 chunk := by
  refine ⟨?_, ?_, ?_, ?_, ?_, ?_, rfl⟩
  · intro s hok r
    cases r <;> rw [generateChunkAudio, hok]
  · intro hov r s1 s2 h1 h2
    rw [generateChunkAudio, hov, h1, h2]
  · intro hov r e1 h1
    rw [generateChunkAudio, hov, h1]
  · intro hov r s1 e2 h1 h2
    rw [generateChunkAudio, hov, h1, h2]
  · intro hov
    rw [generateChunkAudio, hov]
  · intro n hother r
    cases r <;> rw [generateChunkAudio, hother]

/-- C2 counterexample: on the chunk abcdef-space-gh (length 9, midpoint 4,
its only whitespace at index 6) with an engine that overflows exactly on
inputs longer than 7 characters, the code splits mid-word at index 4 and
returns the samples of abcd and of ef-space-gh, while splitting at the
whitespace nearest the midpoint, as the claim states, would return the
samples of abcdef and gh - a different result. -/
theorem c2_recursive_retry_counterexample :
    synthesizeChunk c2Stub "abcdef gh".data = .ok [4, 5] ∧
    claimNearestWsPos "abcdef gh".data = some 6 ∧
    claimSplitSynth c2Stub "abcdef gh".data = .ok [6, 2] ∧
    (Except.ok [4, 5] : Except KokoroError (List Int)) ≠ .ok [6, 2] := by
  decide

/-- C2 witness: the amended recursion evaluated on the counterexample
chunk, composing the two stripped halves at the position the code
actually picks. -/
theorem c2_recursive_retry_witness :
    generateChunkAudio c2Stub (2 + 1) "abcdef gh".data = .ok ([4] ++ [5]) :=
  (c2_recursive_retry c2Stub "abcdef gh".data).2.1 (by decide) 2 [4] [5]
    (by decide) (by decide)

/-- C4 (confirmed): when the raw timestamp list is nonempty, its last
predicted end is positive and the rendered audio is nonempty, every start
and end is multiplied by the single scale actual-duration divided by
predicted-duration, and the last scaled end equals the actual audio
duration, the sample count divided by the sample rate.  Python floats are
modelled as rationals, so the equality is exact. -/
theorem c4_timestamp_scaling (rawTs : List WordStamp) (audioLen : Nat)
    (lastTs : WordStamp) (hlast : rawTs.getLast? = some lastTs)
    (hpos : 0 < lastTs.tEnd) (haud : 0 < audioLen) :
    scaleChunkTimestamps rawTs audioLen =
      rawTs.map (fun t =>
        { word := t.word
          tStart := t.tStart * (((audioLen : ℚ) / sampleRateQ) / lastTs.tEnd)
          tEnd := t.tEnd * (((audioLen : ℚ) / sampleRateQ) / lastTs.tEnd) }) ∧
    (scaleChunkTimestamps rawTs audioLen).getLast? = some
      { word := lastTs.word
        tStart := lastTs.tStart * (((audioLen : ℚ) / sampleRateQ) / lastTs.tEnd)
        tEnd := (audioLen : ℚ) / sampleRateQ } := by
  have h0 : ¬(audioLen = 0) := by omega
  have hmap : scaleChunkTimestamps rawTs audioLen =
      rawTs.map (fun t =>
        { word := t.word
          tStart := t.tStart * (((audioLen : ℚ) / sampleRateQ) / lastTs.tEnd)
          tEnd := t.tEnd * (((audioLen : ℚ) / sampleRateQ) / lastTs.tEnd) }) := by
    unfold scaleChunkTimestamps
    rw [if_neg h0, hlast]
    dsimp only
    rw [if_pos hpos]
  refine ⟨hmap, ?_⟩
  rw [hmap, List.getLast?_map, hlast]
  have hne : lastTs.tEnd ≠ 0 := ne_of_gt hpos
  have hcancel : lastTs.tEnd * (((audioLen : ℚ) / sampleRateQ) / lastTs.tEnd) =
      (audioLen : ℚ) / sampleRateQ := by
    rw [mul_comm]
    exact div_mul_cancel₀ _ hne
  simp only [Option.map_some']
  rw [hcancel]

/-- C4 witness: a concrete raw list of two word timestamps with predicted
last end 4 and 12000 rendered samples (half a second of audio): the last
scaled end equals one half. -/
theorem c4_timestamp_scaling_witness :
    (scaleChunkTimestamps [⟨"hi", 0, 2⟩, ⟨"yo", 2, 4⟩] 12000).getLast? = some
      { word := "yo"
        tStart := (2 : ℚ) * (((12000 : ℚ) / sampleRateQ) / (4 : ℚ))
        tEnd := (12000 : ℚ) / sampleRateQ } :=
  (c4_timestamp_scaling [⟨"hi", 0, 2⟩, ⟨"yo", 2, 4⟩] 12000 ⟨"yo", 2, 4⟩
    (by decide) (by decide) (by decide)).2

/-! ## Claims C8 and C6 -/

theorem contains_iff_mem {α : Type} [BEq α] [LawfulBEq α] (l : List α)
    (a : α) : l.contains a = true ↔ a ∈ l := List.elem_iff

/-- C8 (confirmed): calling update_article_stage with a stage name outside
the known stage set raises ValueError before any row is touched, so the
persisted stage and every other column of every article are unchanged (the
operation returns no updated database at all). -/
theorem c8_stage_validation (db : ArticleDb) (aid : Nat) (stage : String)
    (kwargs : List (String × DbVal)) (h : ¬ stage ∈ validStages) :
    updateArticleStage db aid stage kwargs =
      .error ("Invalid processing stage: " ++ stage) := by
  have hcont : validStages.contains stage = false := by
    cases hcv : validStages.contains stage
    · rfl
    · exact absurd ((contains_iff_mem validStages stage).1 hcv) h
  unfold updateArticleStage
  rw [hcont]
  rfl

/-- C8 witness: the update with the literal stage name invalid_stage from
the db test suite fails with the ValueError message of the source. -/
theorem c8_stage_validation_witness :
    updateArticleStage [cexArticle] 1 "invalid_stage" [] =
      .error ("Invalid processing stage: " ++ "invalid_stage") :=
  c8_stage_validation [cexArticle] 1 "invalid_stage" [] (by decide)

theorem updateArticleStage_queued (db : ArticleDb) (aid : Nat) :
    updateArticleStage db aid "queued" [] =
      .ok (db.map (fun a =>
        if a.id = aid then { a with processingStage := "queued" } else a)) :=
  rfl

theorem mem_insertByCreatedAsc (a b : Article) (l : ArticleDb) :
    b ∈ insertByCreatedAsc a l ↔ b = a ∨ b ∈ l := by
  induction l with
  | nil => simp [insertByCreatedAsc]
  | cons c cs ih =>
    rw [insertByCreatedAsc]
    by_cases hle : a.createdAt ≤ c.createdAt
    · rw [if_pos hle]
      simp
    · rw [if_neg hle]
      simp [ih]
      tauto

theorem mem_sortByCreatedAsc (b : Article) (l : ArticleDb) :
    b ∈ sortByCreatedAsc l ↔ b ∈ l := by
  induction l with
  | nil => simp [sortByCreatedAsc]
  | cons c cs ih =>
    rw [sortByCreatedAsc, mem_insertByCreatedAsc]
    simp [ih]

theorem mem_getAllArticles (b : Article) (db : ArticleDb) :
    b ∈ getAllArticles db ↔ b ∈ db := by
  unfold getAllArticles
  rw [List.mem_reverse]
  exact mem_sortByCreatedAsc b db

theorem resetFold_eq :
    ∀ (L : List Article) (acc : ArticleDb),
      L.foldl
        (fun acc a =>
          if inProgressStages.contains a.processingStage then
            match updateArticleStage acc a.id "queued" [] with
            | .ok db1 => db1
            | .error _ => acc
          else acc)
        acc
      = acc.map (fun b =>
          if ((L.filter (fun a => inProgressStages.contains a.processingStage)).map
              (fun a => a.id)).contains b.id then
            { b with processingStage := "queued" }
          else b) := by
  intro L
  induction L with
  | nil =>
    intro acc
    simp
  | cons a L ih =>
    intro acc
    rw [List.foldl_cons]
    by_cases ha : inProgressStages.contains a.processingStage
    · rw [if_pos ha, updateArticleStage_queued]
      dsimp only
      rw [ih, List.map_map]
      apply List.map_congr_left
      intro b _
      simp only [Function.comp_apply, List.filter_cons, ha, if_true,
        List.map_cons, List.contains_cons]
      by_cases hid : b.id = a.id
      · rw [if_pos hid]
        have hbeq : (b.id == a.id) = true := by simp [hid]
        rw [hbeq]
        simp only [Bool.true_or, if_true]
        split <;> rfl
      · rw [if_neg hid]
        have hbeq : (b.id == a.id) = false := by simp [hid]
        rw [hbeq]
        simp only [Bool.false_or]
    · rw [if_neg ha, ih]
      apply List.map_congr_left
      intro b _
      simp only [List.filter_cons]
      rw [if_neg ha]

/-- C6 (confirmed): when article ids are unique (the primary key), the
startup recovery step maps every article whose persisted stage is one of
extracting, cleaning, generating to the same article with stage queued -
every other column unchanged - and leaves every article in any other
stage entirely untouched. -/
theorem c6_crash_recovery (db : ArticleDb)
    (hnd : (db.map (fun a => a.id)).Nodup) :
    resetInProgressArticles db = db.map (fun a =>
      if inProgressStages.contains a.processingStage then
        { a with processingStage := "queued" }
      else a) := by
  unfold resetInProgressArticles
  rw [resetFold_eq]
  apply List.map_congr_left
  intro b hb
  by_cases hbp : inProgressStages.contains b.processingStage
  · have hc : (((getAllArticles db).filter
        (fun a => inProgressStages.contains a.processingStage)).map
        (fun a => a.id)).contains b.id = true := by
      apply (contains_iff_mem _ _).2
      exact List.mem_map_of_mem _
        (List.mem_filter.2 ⟨(mem_getAllArticles b db).2 hb, hbp⟩)
    rw [if_pos hc, if_pos hbp]
  · have hc : ¬((((getAllArticles db).filter
        (fun a => inProgressStages.contains a.processingStage)).map
        (fun a => a.id)).contains b.id = true) := by
      intro hcon
      obtain ⟨a2, ha2mem, ha2id⟩ :=
        List.mem_map.1 ((contains_iff_mem _ _).1 hcon)
      obtain ⟨ha2all, ha2p⟩ := List.mem_filter.1 ha2mem
      have ha2db : a2 ∈ db := (mem_getAllArticles a2 db).1 ha2all
      have heq : a2 = b := List.inj_on_of_nodup_map hnd ha2db hb ha2id
      exact hbp (heq ▸ ha2p)
    rw [if_neg hc, if_neg hbp]

/-- C6 witness: a database holding an article persisted mid-cleaning with
its artifacts and a ready article: recovery sets the first to queued with
all other columns intact and leaves the second untouched. -/
theorem c6_crash_recovery_witness :
    resetInProgressArticles [c6CleaningArticle, c6ReadyArticle] =
      [{ c6CleaningArticle with processingStage := "queued" },
       c6ReadyArticle] := by
  rw [c6_crash_recovery _ (by decide)]
  decide

/-! ## Worker lemmas: database writes keyed by an absent id are no-ops -/

theorem getArticle_eq_none_iff (db : ArticleDb) (aid : Nat) :
    getArticle db aid = none ↔ ∀ b ∈ db, b.id ≠ aid := by
  unfold getArticle
  rw [List.find?_eq_none]
  constructor
  · intro h b hb
    have := h b hb
    simpa using this
  · intro h b hb
    simpa using h b hb

theorem map_id_of_absent (db : ArticleDb) (aid : Nat) (f : Article → Article)
    (h : ∀ b ∈ db, b.id ≠ aid) :
    db.map (fun a => if a.id = aid then f a else a) = db := by
  have h1 : db.map (fun a => if a.id = aid then f a else a) =
      db.map (fun a => a) :=
    List.map_congr_left (fun a ha => if_neg (h a ha))
  rw [h1, List.map_id']

theorem updateArticleStage_absent (db : ArticleDb) (aid : Nat) (stage : String)
    (kw : List (String × DbVal)) (db1 : ArticleDb)
    (habs : getArticle db aid = none)
    (h : updateArticleStage db aid stage kw = .ok db1) : db1 = db := by
  unfold updateArticleStage at h
  split at h
  · simp at h
  · split at h
    · simp at h
    · injection h with h2
      rw [← h2]
      exact map_id_of_absent db aid _ ((getArticle_eq_none_iff db aid).1 habs)

theorem updateArticleProgress_absent (db : ArticleDb) (aid : Nat)
    (progress : String) (db1 : ArticleDb) (habs : getArticle db aid = none)
    (h : updateArticleProgress db aid progress = .ok db1) : db1 = db := by
  unfold updateArticleProgress at h
  split at h
  · simp at h
  · injection h with h2
    rw [← h2]
    exact map_id_of_absent db aid _ ((getArticle_eq_none_iff db aid).1 habs)

theorem updateArticleMp3_absent (db : ArticleDb) (aid : Nat) (mp3 : String)
    (ts : Option String) (habs : getArticle db aid = none) :
    updateArticleMp3 db aid mp3 ts = db := by
  unfold updateArticleMp3
  exact map_id_of_absent db aid _ ((getArticle_eq_none_iff db aid).1 habs)

theorem setArticleError_absent (db : ArticleDb) (aid : Nat) (msg : String)
    (habs : getArticle db aid = none) : setArticleError db aid msg = db := by
  unfold setArticleError
  exact map_id_of_absent db aid _ ((getArticle_eq_none_iff db aid).1 habs)

theorem pyM_bind_eq {α β : Type} (x : PyM α) (f : α → PyM β) (st : SysState) :
    (x >>= f) st =
      match x st with
      | (st1, .ok a) => f a st1
      | (st1, .error e) => (st1, .error e) := rfl

theorem preserves_bind {aid : Nat} {α β : Type} {x : PyM α} {f : α → PyM β}
    (hx : PreservesDbOn aid x) (hf : ∀ a, PreservesDbOn aid (f a)) :
    PreservesDbOn aid (x >>= f) := by
  intro st habs
  rw [pyM_bind_eq]
  cases hx1 : x st with
  | mk st1 r =>
    have hdb : st1.db = st.db := by
      have hh := hx st habs
      rw [hx1] at hh
      exact hh
    have habs1 : getArticle st1.db aid = none := by rw [hdb]; exact habs
    cases r with
    | ok a =>
      dsimp only
      rw [hf a st1 habs1]
      exact hdb
    | error e => exact hdb

theorem preserves_pure (aid : Nat) {α : Type} (a : α) :
    PreservesDbOn aid (pure a : PyM α) := fun _ _ => rfl

theorem preserves_pyRaise (aid : Nat) {α : Type} (e : PyExc) :
    PreservesDbOn aid (pyRaise (α := α) e) := fun _ _ => rfl

theorem preserves_pyLift (aid : Nat) {α : Type} (r : Except PyExc α) :
    PreservesDbOn aid (pyLift r) := fun _ _ => rfl

theorem preserves_pyFsExists (aid : Nat) (p : String) :
    PreservesDbOn aid (pyFsExists p) := fun _ _ => rfl

theorem preserves_pyFsWrite (aid : Nat) (p c : String) :
    PreservesDbOn aid (pyFsWrite p c) := fun _ _ => rfl

theorem preserves_pyFsDelete (aid : Nat) (p : String) :
    PreservesDbOn aid (pyFsDelete p) := fun _ _ => rfl

theorem preserves_pyFsReadText (aid : Nat) (p : String) :
    PreservesDbOn aid (pyFsReadText p) := by
  intro st _
  unfold pyFsReadText
  split <;> rfl

theorem preserves_dbGetArticleM (aid aid2 : Nat) :
    PreservesDbOn aid (dbGetArticleM aid2) := fun _ _ => rfl

theorem preserves_dbUpdateStageM (aid : Nat) (stage : String)
    (kw : List (String × DbVal)) :
    PreservesDbOn aid (dbUpdateStageM aid stage kw) := by
  intro st habs
  unfold dbUpdateStageM
  split
  next db1 heq =>
    exact updateArticleStage_absent st.db aid stage kw db1 habs heq
  next => rfl

theorem preserves_dbUpdateProgressM (aid : Nat) (progress : String) :
    PreservesDbOn aid (dbUpdateProgressM aid progress) := by
  intro st habs
  unfold dbUpdateProgressM
  split
  next db1 heq =>
    exact updateArticleProgress_absent st.db aid progress db1 habs heq
  next => rfl

theorem preserves_dbUpdateMp3M (aid : Nat) (mp3 : String) :
    PreservesDbOn aid (dbUpdateMp3M aid mp3) := by
  intro st habs
  unfold dbUpdateMp3M
  exact updateArticleMp3_absent st.db aid mp3 none habs

theorem preserves_ite (aid : Nat) {α : Type} (c : Prop) [Decidable c]
    {x y : PyM α} (hx : PreservesDbOn aid x) (hy : PreservesDbOn aid y) :
    PreservesDbOn aid (if c then x else y) := by
  by_cases h : c
  · rw [if_pos h]; exact hx
  · rw [if_neg h]; exact hy

theorem preserves_pyTryWrap (aid : Nat) {α : Type} {body : PyM α}
    (wrap : PyExc → PyExc) (hbody : PreservesDbOn aid body) :
    PreservesDbOn aid (pyTryWrap body wrap) := by
  intro st habs
  unfold pyTryWrap
  have hh := hbody st habs
  split
  next st1 a heq => rw [heq] at hh; exact hh
  next st1 e heq => rw [heq] at hh; exact hh

theorem preserves_progressCallbackM (aid cur total : Nat) :
    PreservesDbOn aid (progressCallbackM aid cur total) := by
  unfold progressCallbackM
  exact preserves_dbUpdateProgressM aid _

theorem preserves_getArticle_bind (aid : Nat) {β : Type}
    (f : Option Article → PyM β) (hnone : PreservesDbOn aid (f none)) :
    PreservesDbOn aid (dbGetArticleM aid >>= f) := by
  intro st habs
  rw [pyM_bind_eq]
  have hg : dbGetArticleM aid st = (st, .ok none) := by
    unfold dbGetArticleM
    rw [habs]
  rw [hg]
  exact hnone st habs

theorem preserves_doExtraction (env : ExecEnv) (a : Article) :
    PreservesDbOn a.id (doExtraction env a) := by
  unfold doExtraction
  apply preserves_bind
  · cases hrp : a.rawTxtPath with
    | none => exact preserves_pure _ _
    | some p =>
      exact preserves_ite _ _ (preserves_pure _ _) (preserves_pyFsExists _ _)
  · intro existingOk
    apply preserves_ite
    · exact preserves_dbUpdateStageM _ _ _
    · apply preserves_bind
      · exact preserves_dbUpdateStageM _ _ _
      · intro _
        apply preserves_bind
        · apply preserves_ite
          · exact preserves_pyLift _ _
          · apply preserves_ite
            · exact preserves_pyLift _ _
            · exact preserves_pyRaise _ _
        · intro tt
          apply preserves_bind
          · exact preserves_pyFsWrite _ _ _
          · intro _
            exact preserves_dbUpdateStageM _ _ _

theorem preserves_doCleaning (env : ExecEnv) (a : Article) :
    PreservesDbOn a.id (doCleaning env a) := by
  unfold doCleaning
  cases hrp : a.rawTxtPath with
  | none => exact preserves_pyRaise _ _
  | some rawPath =>
    apply preserves_ite
    · exact preserves_pyRaise _ _
    · apply preserves_bind
      · exact preserves_pyFsExists _ _
      · intro ex
        apply preserves_ite
        · exact preserves_dbUpdateStageM _ _ _
        · apply preserves_bind
          · exact preserves_pyFsReadText _ _
          · intro text
            apply preserves_ite
            · exact preserves_dbUpdateStageM _ _ _
            · apply preserves_bind
              · exact preserves_dbUpdateStageM _ _ _
              · intro _
                apply preserves_pyTryWrap
                apply preserves_bind
                · exact preserves_pyLift _ _
                · intro cleaned
                  apply preserves_bind
                  · exact preserves_pyFsWrite _ _ _
                  · intro _
                    exact preserves_dbUpdateStageM _ _ _

theorem preserves_synthChunksGo (env : ExecEnv) (aid total : Nat) :
    ∀ (chunks : List Chars) (i : Nat),
      PreservesDbOn aid (synthChunksGo env aid total chunks i) := by
  intro chunks
  induction chunks with
  | nil => intro i; exact preserves_pure _ _
  | cons c rest ih =>
    intro i
    rw [synthChunksGo]
    apply preserves_bind
    · exact preserves_progressCallbackM _ _ _
    · intro _
      apply preserves_bind
      · exact preserves_pyLift _ _
      · intro samples
        apply preserves_bind
        · exact ih (i + 1)
        · intro restSamples
          exact preserves_pure _ _

theorem preserves_generateAudioChunkedM (env : ExecEnv) (aid : Nat)
    (text outputPath : String) :
    PreservesDbOn aid (generateAudioChunkedM env aid text outputPath) := by
  unfold generateAudioChunkedM
  apply preserves_bind
  · exact preserves_synthChunksGo env aid _ _ 0
  · intro allSamples
    apply preserves_bind
    · exact preserves_progressCallbackM _ _ _
    · intro _
      apply preserves_bind
      · exact preserves_pyFsWrite _ _ _
      · intro _
        apply preserves_bind
        · exact preserves_progressCallbackM _ _ _
        · intro _
          apply preserves_bind
          · exact preserves_pyFsWrite _ _ _
          · intro _
            apply preserves_bind
            · exact preserves_pyFsDelete _ _
            · intro _
              exact preserves_progressCallbackM _ _ _

theorem preserves_doAudioGeneration (env : ExecEnv) (a : Article) :
    PreservesDbOn a.id (doAudioGeneration env a) := by
  unfold doAudioGeneration
  cases hsrc : pyOrField a.cleanedTxtPath a.rawTxtPath with
  | none => exact preserves_pyRaise _ _
  | some src =>
    apply preserves_ite
    · exact preserves_pyRaise _ _
    · apply preserves_bind
      · exact preserves_pyFsExists _ _
      · intro ex
        apply preserves_ite
        · exact preserves_dbUpdateMp3M _ _
        · apply preserves_bind
          · exact preserves_pyFsReadText _ _
          · intro text
            apply preserves_bind
            · exact preserves_dbUpdateStageM _ _ _
            · intro _
              apply preserves_bind
              · exact preserves_generateAudioChunkedM _ _ _ _
              · intro _
                exact preserves_dbUpdateMp3M _ _

theorem preserves_stageChain (env : ExecEnv) (a : Article) :
    PreservesDbOn a.id (stageChain env a) := by
  unfold stageChain
  apply preserves_bind
  · exact preserves_ite _ _ (preserves_doExtraction env a) (preserves_pure _ _)
  · intro _
    apply preserves_getArticle_bind
    exact preserves_pure _ _

/-! ## Claims C10 and C5 -/

/-- C10 (confirmed): processing an article whose id the store no longer
holds - the worker keeps only a stale snapshot after a concurrent delete -
never recreates the item and writes no field for it: the database is
unchanged by the whole stage chain (every store write is keyed by the
article id, and the re-reads between stages return absent, stopping the
chain silently); and after a failure the error record is skipped exactly
when the item no longer exists, so the failure path also leaves the
database as the chain left it. -/
theorem c10_deleted_item (env : ExecEnv) (a : Article) (st : SysState) :
    (getArticle st.db a.id = none → (processArticle env a st).db = st.db) ∧
    (∀ st1 e, stageChain env a st = (st1, .error e) →
      getArticle st1.db a.id = none → processArticle env a st = st1) := by
  constructor
  · intro habs
    unfold processArticle
    have hpres := preserves_stageChain env a st habs
    split
    next st1 heq =>
      rw [heq] at hpres
      exact hpres
    next st1 e heq =>
      rw [heq] at hpres
      have habs1 : getArticle st1.db a.id = none := by
        rw [hpres]
        exact habs
      rw [habs1]
      exact hpres
  · intro st1 e heq habs1
    unfold processArticle
    rw [heq]
    dsimp only
    rw [habs1]

/-- C10 witness: processing the stale snapshot of a queued article over an
empty store leaves the store empty. -/
theorem c10_deleted_item_witness :
    (processArticle benignEnv cexArticle { db := [], fs := [] }).db = [] :=
  (c10_deleted_item benignEnv cexArticle { db := [], fs := [] }).1 rfl

/-- C5 (amended): a connectivity, timeout, or OS-level I/O error raised
while fetching the pending list is whole-loop-recoverable - the loop backs
off with the state untouched - and any other exception raised there
terminates the worker; but an exception raised during an executor call,
whatever its class, is handled at item level by _process_article: it is
written to the item as an error record with stage error when the item
still exists, and dropped silently otherwise. -/
theorem c5_error_routing (env : ExecEnv) (st : SysState) (e : PyExc) :
    (env.fetchOutcome = some e → recoverablePyExc e = true →
      workerLoopIteration env st = .backoff st) ∧
    (env.fetchOutcome = some e → recoverablePyExc e = false →
      workerLoopIteration env st = .fatal e st) ∧
    (∀ a st1, stageChain env a st = (st1, .error e) →
      (getArticle st1.db a.id).isSome →
      processArticle env a st =
        { st1 with db := setArticleError st1.db a.id e.message }) ∧
    (∀ a st1, stageChain env a st = (st1, .error e) →
      getArticle st1.db a.id = none → processArticle env a st = st1) := by
  refine ⟨?_, ?_, ?_, ?_⟩
  · intro hf hr
    unfold workerLoopIteration
    rw [hf]
    dsimp only
    rw [if_pos hr]
  · intro hf hr
    unfold workerLoopIteration
    rw [hf]
    dsimp only
    rw [if_neg (by rw [hr]; exact Bool.false_ne_true)]
  · intro a st1 heq hsome
    unfold processArticle
    rw [heq]
    dsimp only
    obtain ⟨a2, ha2⟩ := Option.isSome_iff_exists.1 hsome
    rw [ha2]
  · intro a st1 heq hnone
    unfold processArticle
    rw [heq]
    dsimp only
    rw [hnone]

/-- C5 counterexample: with an extractor that raises ConnectionError and a
queued PDF article pending, one pass of the worker loop body ends with
that item persisted in stage error carrying the error message - the
connectivity failure during the executor call was not treated as
whole-loop-recoverable and did write an error to an item, contradicting
the claim as stated. -/
theorem c5_error_routing_counterexample :
    (match workerLoopIteration c5Env { db := [cexArticle], fs := [] } with
     | .worked st1 =>
       (getArticle st1.db 1).map
         (fun (a : Article) => (a.processingStage, a.error))
     | _ => none) = some ("error", some "connection error") := by
  decide

/-- C5 witness: a ConnectionError raised while fetching the pending list
makes the loop back off with the state untouched. -/
theorem c5_error_routing_witness :
    workerLoopIteration c5FetchEnv { db := [cexArticle], fs := [] } =
      .backoff { db := [cexArticle], fs := [] } :=
  (c5_error_routing c5FetchEnv { db := [cexArticle], fs := [] }
    .connectionError).1 rfl rfl

/-! ## Claims C1 and C7 -/

/-- C1 (amended): deduplication by content hash holds for uploaded PDFs -
when the hash of the uploaded bytes already resolves to an article, the
route returns that article as a duplicate and creates nothing, leaving the
state untouched - but pasted text, although hashed, is never checked
against the store: every valid text submission creates one more article,
so two identical pasted texts yield two articles sharing one
content_hash. -/
theorem c1_dedup (hashFn secureFn : String → String) (st : SysState) :
    (∀ bytes fileName voice ex,
      fileName ≠ "" → voice ∈ validVoiceIds →
      pyEndsWith (pyLower fileName) ".pdf" = true →
      getArticleByHash st.db (hashFn bytes) = some ex →
      processPdfRoute hashFn secureFn st bytes fileName voice =
        (st, .okDuplicate ex.id)) ∧
    (∀ textRaw titleRaw voice,
      pyStripS textRaw ≠ "" → voice ∈ validVoiceIds →
      10 ≤ (pyStripS textRaw).length →
      ((processTextRoute hashFn st textRaw titleRaw voice).1).db.length =
        st.db.length + 1 ∧
      (processTextRoute hashFn st textRaw titleRaw voice).2 =
        .okCreated (nextArticleId st.db)) := by
  constructor
  · intro bytes fileName voice ex hn hv hp hdup
    unfold processPdfRoute
    rw [if_neg hn,
      if_neg (by
        intro hcon
        rw [(contains_iff_mem validVoiceIds voice).2 hv] at hcon
        simp at hcon),
      if_neg (by simp [hp])]
    dsimp only
    rw [hdup]
  · intro textRaw titleRaw voice ht hv hlen
    unfold processTextRoute
    rw [if_neg ht,
      if_neg (by
        intro hcon
        rw [(contains_iff_mem validVoiceIds voice).2 hv] at hcon
        simp at hcon),
      if_neg (by omega)]
    dsimp only
    constructor
    · have hupd : ∀ (db1 : ArticleDb) (aid : Nat) (f : String),
          updateArticleStage db1 aid "extracted" [("raw_txt_path", DbVal.s f)] =
            .ok (db1.map (fun a =>
              if a.id = aid then
                applyColumn { a with processingStage := "extracted" }
                  ("raw_txt_path", DbVal.s f)
              else a)) := fun _ _ _ => rfl
      rw [hupd]
      simp [createArticle]
    · rfl

/-- C1 counterexample: submitting the same pasted text twice creates two
distinct articles carrying the same content hash, instead of resolving the
second submission to the existing item; content_hash is therefore not
unique across items. -/
theorem c1_dedup_counterexample :
    (processTextRoute c1Hash
        (processTextRoute c1Hash { db := [], fs := [] } c1Text "" "am_adam").1
        c1Text "" "am_adam").2 = .okCreated 2 ∧
    ((processTextRoute c1Hash
        (processTextRoute c1Hash { db := [], fs := [] } c1Text "" "am_adam").1
        c1Text "" "am_adam").1.db.filter
      (fun a => a.contentHash == some (c1Hash (pyStripS c1Text)))).length
      = 2 := by
  decide

/-- C1 witness: uploading a PDF whose bytes hash to the stored article
hash resolves to that article without creating a second item. -/
theorem c1_dedup_witness :
    processPdfRoute (fun _ => "h") (fun s => s)
        { db := [cexArticle], fs := [] } "PDFBYTES" "a.pdf" "am_adam" =
      ({ db := [cexArticle], fs := [] }, .okDuplicate 1) :=
  ((c1_dedup (fun _ => "h") (fun s => s) { db := [cexArticle], fs := [] }).1
    "PDFBYTES" "a.pdf" "am_adam" cexArticle (by decide) (by decide)
    (by decide) rfl)

/-- C7 (amended): when an article carries a nonempty content_hash, the
artifact filenames checked and written by the executors are deterministic
functions of the hash, the stage suffix and (for audio) the voice - the
per-run uuid4 fallback is not consulted, so two runs compute the same
names; an article without a content_hash instead draws a fresh random
16-character fallback on every executor run, so its expected filenames are
not reproducible across runs. -/
theorem c7_filename_determinism (h fresh fresh2 voice : String)
    (hne : h ≠ "") :
    pyOr (some h) fresh = h ∧
    rawTextFilename (pyOr (some h) fresh) =
      rawTextFilename (pyOr (some h) fresh2) ∧
    cleanedTextFilename (pyOr (some h) fresh) =
      cleanedTextFilename (pyOr (some h) fresh2) ∧
    audioFilename (pyOr (some h) fresh) voice =
      audioFilename (pyOr (some h) fresh2) voice := by
  have hp : pyOr (some h) fresh = h := by
    unfold pyOr
    dsimp only
    rw [if_neg hne]
  have hp2 : pyOr (some h) fresh2 = h := by
    unfold pyOr
    dsimp only
    rw [if_neg hne]
  exact ⟨hp, by rw [hp, hp2], by rw [hp, hp2], by rw [hp, hp2]⟩

/-- C7 counterexample: for an article with no content_hash (as URL-sourced
articles are created), two executor runs drawing different uuid4 fallbacks
compute different raw-text filenames, so the on-disk name is not a
function of content_hash, stage and voice and the idempotence lookup of a
later run cannot find the earlier file. -/
theorem c7_filename_determinism_counterexample :
    rawTextFilename (pyOr none "aaaa0000aaaa0000") ≠
      rawTextFilename (pyOr none "bbbb1111bbbb1111") := by
  decide

/-- C7 witness: a concrete nonempty stored hash yields the same three
artifact names whatever the fallback draws are. -/
theorem c7_filename_determinism_witness :
    pyOr (some "cafe01234567beef") "zzzz" = "cafe01234567beef" ∧
    rawTextFilename (pyOr (some "cafe01234567beef") "zzzz") =
      rawTextFilename (pyOr (some "cafe01234567beef") "wwww") ∧
    cleanedTextFilename (pyOr (some "cafe01234567beef") "zzzz") =
      cleanedTextFilename (pyOr (some "cafe01234567beef") "wwww") ∧
    audioFilename (pyOr (some "cafe01234567beef") "zzzz") "af_heart" =
      audioFilename (pyOr (some "cafe01234567beef") "wwww") "af_heart" :=
  c7_filename_determinism "cafe01234567beef" "zzzz" "wwww" "af_heart"
    (by decide)
